import Mathlib

/-!
Verification development for the csvgres SQL-over-CSV engine.

The definitions below are a shallow embedding of the Python sources under
`src/transformer/`: dynamic Python values become the sum type `PyVal`, a
pandas `DataFrame` becomes a header plus a list of rows, the JSON metadata
sidecar becomes an ordered association list of `ColumnMeta`, and each engine
operation becomes a pure function returning `Except` (a raised exception is
an `error`; the sources write files only after all checks of an operation
have passed, so an error leaves the persisted state untouched).

Python library behaviour that the sources rely on is modelled on the
fragment the engine actually exercises and each such definition says so in
its doc comment (`eval` of list literals, `str` of a list of strings,
`str.strip`, `str.isdigit`, pandas `concat`/`duplicated`/`fillna`).
-/

deriving instance DecidableEq for Except

namespace Csvgres

/-- Dynamic values flowing through the engine: Python `None`/NaN, `int`,
`float` (modelled as a rational), `str`, `bool`, and `list` of strings
(the only list shape the engine stores, for ARRAY columns). -/
inductive PyVal where
  | none
  | int (n : Int)
  | float (q : Rat)
  | str (s : String)
  | bool (b : Bool)
  | list (l : List String)
deriving DecidableEq, Repr

/-- Whether the first character list is a prefix of the second. -/
def charsPrefix : List Char → List Char → Bool
  | [], _ => true
  | _ :: _, [] => false
  | a :: as, b :: bs => a == b && charsPrefix as bs

/-- Whether the first character list occurs inside the second. -/
def charsSubstr (needle : List Char) : List Char → Bool
  | [] => charsPrefix needle []
  | c :: rest => charsPrefix needle (c :: rest) || charsSubstr needle rest

/-- Python `needle in haystack` on strings (substring test). -/
def substrIn (needle hay : String) : Bool :=
  charsSubstr needle.data hay.data

/-- Python `s.upper()` (ASCII). -/
def pyUpper (s : String) : String :=
  String.mk (s.data.map Char.toUpper)

/-- Python `s.lower()` (ASCII). -/
def pyLower (s : String) : String :=
  String.mk (s.data.map Char.toLower)

/-- Python `s.strip(chars)`: remove leading and trailing characters drawn
from `chars`. -/
def pyStrip (chars : List Char) (s : String) : String :=
  String.mk (((s.data.dropWhile (· ∈ chars)).reverse.dropWhile (· ∈ chars)).reverse)

/-- Python `s.strip("'\"")` as used by `TypeHandler.parse_value_with_type`. -/
def pyStripQuotes (s : String) : String :=
  pyStrip ['\'', '"'] s

/-- All-ASCII-digit test on a character list. -/
def pyIsDigitChars (l : List Char) : Bool :=
  !l.isEmpty && l.all Char.isDigit

/-- Python `s.isdigit()` restricted to ASCII digits (the engine only meets
ASCII input; exotic unicode digits are outside the modelled fragment). -/
def pyIsDigit (s : String) : Bool :=
  pyIsDigitChars s.data

/-- Decimal value of a list of ASCII digits. -/
def natOfDigits : List Char → Nat :=
  List.foldl (fun acc c => acc * 10 + (c.toNat - 48)) 0

/-- Python `int(s)` for a string that passed `isdigit`. -/
def pyIntOfString (s : String) : Int :=
  (natOfDigits s.data : Nat)

/-- Split a character list at its first `'.'`, if any. -/
def breakAtDot : List Char → (List Char × Option (List Char))
  | [] => ([], Option.none)
  | c :: rest =>
    if c = '.' then ([], some rest)
    else
      let (a, b) := breakAtDot rest
      (c :: a, b)

/-- Python `float(s)` on the simple `[-]digits[.digits]` fragment; other
spellings (exponents, `inf`, `nan`) are outside the modelled fragment and
count as a parse failure. -/
def pyFloat? (s : String) : Option Rat :=
  let core : List Char → Option Rat := fun t =>
    match breakAtDot t with
    | (a, Option.none) =>
      if pyIsDigitChars a then some ((natOfDigits a : Nat) : Rat) else Option.none
    | (a, some b) =>
      if pyIsDigitChars a && pyIsDigitChars b then
        some (((natOfDigits a : Nat) : Rat) + ((natOfDigits b : Nat) : Rat) / ((10 : Rat) ^ b.length))
      else Option.none
  match s.data with
  | '-' :: r => (core r).map Neg.neg
  | _ => core s.data

/-- Python `int(float)`: truncation toward zero. -/
def ratTrunc (q : Rat) : Int :=
  if q < 0 then -((-q).floor) else q.floor

/-- Python `repr` of a string for strings that do not contain both kinds of
quote: single quotes by default, double quotes when the string contains a
single quote but no double quote (the backslash-escaped case is outside the
modelled fragment). -/
def pyReprChars (s : String) : List Char :=
  let q : Char := if s.data.contains '\'' && !s.data.contains '"' then '"' else '\''
  q :: (s.data ++ [q])

/-- Characters of Python `str(l)` for a list of strings, without the
surrounding brackets: elements rendered by `repr`, joined by a comma and a
space. -/
def pyStrListChars : List String → List Char
  | [] => []
  | [s] => pyReprChars s
  | s :: rest => pyReprChars s ++ ',' :: ' ' :: pyStrListChars rest

/-- Python `str(l)` for a list of strings, e.g. `str([])` and the textual
form the UPDATE array helpers store back into a cell. -/
def pyStrList (l : List String) : String :=
  String.mk ('[' :: (pyStrListChars l ++ [']']))

/-- Python `str(value)` on the `PyVal` fragment. -/
def pyStr : PyVal → String
  | .none => "None"
  | .int n => toString n
  | .float q => toString q
  | .str s => s
  | .bool b => if b then "True" else "False"
  | .list l => pyStrList l

/-- Shallow embedding of `TypeHandler.parse_value_with_type`
(`src/transformer/utils/type_handlers.py`).  `Option.none` is a raised
`ValueError`; `now` stands for `datetime.now().isoformat()`. -/
def parse_value_with_type (now : String) (value : PyVal) (data_type : String) : Option PyVal :=
  if value = PyVal.none then some PyVal.none else
  let value := match value with
    | .str s => .str (pyStripQuotes s)
    | v => v
  let dt := pyUpper data_type
  if substrIn "CHAR" dt || substrIn "TEXT" dt then
    some (.str (pyStr value))
  else if substrIn "INT" dt then
    match value with
    | .str s => if pyIsDigit s then some (.int (pyIntOfString s)) else Option.none
    | .int n => some (.int n)
    | .float q => some (.int (ratTrunc q))
    | .bool b => some (.int (if b then 1 else 0))
    | _ => Option.none
  else if substrIn "DECIMAL" dt || substrIn "NUMERIC" dt then
    match value with
    | .str s => (pyFloat? s).map .float
    | .int n => some (.float (n : Rat))
    | .float q => some (.float q)
    | .bool b => some (.float (if b then 1 else 0))
    | _ => Option.none
  else if dt = "BOOLEAN" then
    match value with
    | .str s =>
      if pyLower s = "true" || pyLower s = "t" || pyLower s = "yes" ||
          pyLower s = "y" || pyLower s = "1" then some (.bool true)
      else if pyLower s = "false" || pyLower s = "f" || pyLower s = "no" ||
          pyLower s = "n" || pyLower s = "0" then some (.bool false)
      else Option.none
    | .bool b => some (.bool b)
    | .int n => some (.bool (n ≠ 0))
    | .float q => some (.bool (q ≠ 0))
    | .list l => some (.bool (!l.isEmpty))
    | .none => some (.bool false)
  else if substrIn "TIMESTAMP" dt || substrIn "DATE" dt then
    if value = .str "CURRENT_TIMESTAMP" then some (.str now) else some value
  else
    some value

example : parse_value_with_type "t0" (.str "123") "INT" = some (.int 123) := by decide
example : parse_value_with_type "t0" (.str "12a") "INT" = Option.none := by decide
example : parse_value_with_type "t0" (.str "'John'") "TEXT" = some (.str "John") := by decide
example : parse_value_with_type "t0" (.int 7) "INT" = some (.int 7) := by decide

/-- Per-column JSON metadata (`.metadata/<table>.json`), as `create_table`
writes it and `insert` reads it: a field absent from the JSON appears here
with its falsy default; the counters are only meaningful when `is_serial`. -/
structure ColumnMeta where
  type : String
  is_serial : Bool := false
  initial_counter_value : Int := 1
  auto_increment_counter : Int := 1
  primary_key : Bool := false
  not_null : Bool := false
  unique : Bool := false
  default : Option PyVal := Option.none
  array_type : Option String := Option.none
deriving DecidableEq, Repr

/-- A pandas DataFrame as the engine uses one: column labels in order and
rows of values aligned with the labels (a row shorter than the header reads
as NaN in the missing columns, as pandas does for ragged CSV lines). -/
structure DataFrame where
  cols : List String
  rows : List (List PyVal)
deriving DecidableEq, Repr

/-- `df[c]`: the values of column `c` (NaN for cells a short row lacks). -/
def DataFrame.col (df : DataFrame) (c : String) : List PyVal :=
  df.rows.map (fun r => r.getD (df.cols.indexOf c) PyVal.none)

/-- Column-wise transform `df[c] = df[c].apply(f)` where `f` may raise
(`f` returning `Option.none`); the whole call is `none` when `f` raises on
some cell or when the column is missing (a pandas `KeyError`). -/
def DataFrame.mapColM (df : DataFrame) (c : String) (f : PyVal → Option PyVal) :
    Option DataFrame :=
  if df.cols.contains c then
    let i := df.cols.indexOf c
    (df.rows.mapM (fun r => (f (r.getD i PyVal.none)).map (fun v => r.set i v))).map
      (fun rows => { df with rows := rows })
  else Option.none

/-- Realign a row laid out against the `src` column labels to the `tgt`
labels, absent values becoming NaN. -/
def reindexRow (src tgt : List String) (r : List PyVal) : List PyVal :=
  tgt.map (fun c => if src.contains c then r.getD (src.indexOf c) PyVal.none else PyVal.none)

/-- pandas `pd.concat([a, b], ignore_index=True)`: with identical column
layouts the rows are stacked; otherwise columns of `b` missing from `a` are
appended on the right and every row is realigned. -/
def DataFrame.concat (a b : DataFrame) : DataFrame :=
  if a.cols = b.cols then { cols := a.cols, rows := a.rows ++ b.rows }
  else
    let cols := a.cols ++ b.cols.filter (fun c => !a.cols.contains c)
    { cols := cols
      rows := a.rows.map (reindexRow a.cols cols) ++ b.rows.map (reindexRow b.cols cols) }

/-- Errors `DataOperations.insert` can raise, by taxonomy (in the source
they are all `ValueError`, distinguished by their messages). -/
inductive InsertError where
  | tableNotFound (t : String)
  | schemaError (col : String)
  | valueError (col : String)
  | typeError (col : String)
  | notNullViolation (col : String)
  | constraintError (col : String)
deriving DecidableEq, Repr

/-- Target column list of an INSERT (`data_ops.py` lines 46-52): the
explicit column list when present, each name validated against the
metadata, else the list of all declared columns. -/
def resolveInsertColumns (meta : List (String × ColumnMeta)) :
    Option (List String) → Except InsertError (List String)
  | some cols =>
    match cols.find? (fun c => !(meta.map Prod.fst).contains c) with
    | some c => .error (.schemaError c)
    | Option.none => .ok cols
  | Option.none => .ok (meta.map Prod.fst)

/-- Python dict entry assignment on an insertion-ordered association list
whose keys are unique: the entry keeps its position. -/
def assocSet (l : List (String × PyVal)) (k : String) (v : PyVal) : List (String × PyVal) :=
  l.map (fun p => if p.1 = k then (k, v) else p)

/-- One `row_dict` of `data_ops.py` lines 57-62: every declared column
starts at `None`, then the i-th insert column receives the i-th tuple value
(a tuple shorter than the column list leaves the tail at `None`, a longer
tuple's extra values are dropped). -/
def buildRow (keys insertColumns : List String) (row : List PyVal) : List (String × PyVal) :=
  (insertColumns.enum).foldl
    (fun acc p => if p.1 < row.length then assocSet acc p.2 (row.getD p.1 PyVal.none) else acc)
    (keys.map (fun k => (k, PyVal.none)))

/-- The `new_rows` DataFrame built from the VALUES matrix (`data_ops.py`
lines 54-69): one column per declared column, in declaration order. -/
def buildNewRows (meta : List (String × ColumnMeta)) (insertColumns : List String)
    (valuesData : List (List PyVal)) : DataFrame :=
  { cols := meta.map Prod.fst
    rows := valuesData.map
      (fun row => (buildRow (meta.map Prod.fst) insertColumns row).map Prod.snd) }

/-- Serial assignment and defaults (`data_ops.py` lines 71-84): a SERIAL
column writes the current `auto_increment_counter` (one scalar per
statement) into every `None` cell and then bumps the counter by the number
of such cells; otherwise a declared default is coerced by the type handler
and filled into the `None` cells (the source's dedicated ARRAY branch
differs from `fillna` only by copying the list per row, which a pure model
cannot observe). -/
def applySerialDefaults (now : String) :
    List (String × ColumnMeta) → DataFrame →
    Except InsertError (DataFrame × List (String × ColumnMeta))
  | [], df => .ok (df, [])
  | (c, m) :: rest, df =>
    if m.is_serial then
      let k := ((df.col c).filter (fun v => v = PyVal.none)).length
      match df.mapColM c
          (fun v => some (if v = PyVal.none then .int m.auto_increment_counter else v)) with
      | some df1 =>
        (applySerialDefaults now rest df1).map
          (fun p => (p.1, (c, { m with auto_increment_counter := m.auto_increment_counter + k }) :: p.2))
      | Option.none => .error (.valueError c)
    else
      match m.default with
      | some d =>
        match parse_value_with_type now d m.type with
        | some dv =>
          match df.mapColM c (fun v => some (if v = PyVal.none then dv else v)) with
          | some df1 => (applySerialDefaults now rest df1).map (fun p => (p.1, (c, m) :: p.2))
          | Option.none => .error (.valueError c)
        | Option.none => .error (.valueError c)
      | Option.none => (applySerialDefaults now rest df).map (fun p => (p.1, (c, m) :: p.2))

/-- Per-column type validation of the new rows (`data_ops.py` lines 87-95). -/
def typeValidate (now : String) :
    List (String × ColumnMeta) → DataFrame → Except InsertError DataFrame
  | [], df => .ok df
  | (c, m) :: rest, df =>
    if df.cols.contains c then
      match df.mapColM c (fun v => parse_value_with_type now v m.type) with
      | some df1 => typeValidate now rest df1
      | Option.none => .error (.typeError c)
    else typeValidate now rest df

/-- NOT NULL / PRIMARY KEY null rejection (`data_ops.py` lines 98-102). -/
def notNullCheck : List (String × ColumnMeta) → DataFrame → Except InsertError Unit
  | [], _ => .ok ()
  | (c, m) :: rest, df =>
    if (m.not_null || m.primary_key) && (df.col c).contains PyVal.none then
      .error (.notNullViolation c)
    else notNullCheck rest df

/-- pandas `Series.duplicated().any()`: some value occurs at least twice
(pandas counts NaN as duplicating NaN, matching `PyVal.none` equality). -/
def hasDup : List PyVal → Bool
  | [] => false
  | v :: rest => rest.contains v || hasDup rest

/-- UNIQUE / PRIMARY KEY duplicate rejection over the combined frame
(`data_ops.py` lines 111-115). -/
def uniqueCheck : List (String × ColumnMeta) → DataFrame → Except InsertError Unit
  | [], _ => .ok ()
  | (c, m) :: rest, df =>
    if (m.unique || m.primary_key) && hasDup (df.col c) then
      .error (.constraintError c)
    else uniqueCheck rest df

/-- The stages of `DataOperations.insert` that run before the existing CSV
is combined with the new rows: resolve target columns, build `new_rows`,
serial/defaults, type validation, NOT NULL validation. -/
def insertPrepare (now : String) (meta : List (String × ColumnMeta))
    (cols? : Option (List String)) (valuesData : List (List PyVal)) :
    Except InsertError (DataFrame × List (String × ColumnMeta)) := do
  let insertColumns ← resolveInsertColumns meta cols?
  let nr0 := buildNewRows meta insertColumns valuesData
  let (nr1, meta1) ← applySerialDefaults now meta nr0
  let nr2 ← typeValidate now meta1 nr1
  let _ ← notNullCheck meta1 nr2
  .ok (nr2, meta1)

/-- A table on disk: the rows CSV (as a DataFrame) and the JSON metadata. -/
structure TableFile where
  df : DataFrame
  meta : List (String × ColumnMeta)
deriving DecidableEq, Repr

/-- Shallow embedding of `DataOperations.insert` on one table
(`src/transformer/operations/data_ops.py` lines 16-124): on success the
returned pair is what the final concurrent write persists (combined CSV and
bumped metadata); an `error` is an exception raised before either write, so
the persisted files keep their previous contents. -/
def insertStmt (now : String) (tf : TableFile) (cols? : Option (List String))
    (valuesData : List (List PyVal)) : Except InsertError TableFile := do
  let (newRows, meta1) ← insertPrepare now tf.meta cols? valuesData
  let combined := tf.df.concat newRows
  let _ ← uniqueCheck meta1 combined
  .ok ⟨combined, meta1⟩

/-- The table pair after an INSERT whose exception, if any, propagated to
the caller: on an error the two files are exactly as before. -/
def runInsertOp (now : String) (tf : TableFile) (cols? : Option (List String))
    (valuesData : List (List PyVal)) : TableFile :=
  match insertStmt now tf cols? valuesData with
  | .ok tf1 => tf1
  | .error _ => tf

/-- The serial/TEXT two-column table of the SERIAL claims: `id` SERIAL with
counter `c`, `name` TEXT, current rows `rows`. -/
def serialTF (c : Int) (rows : List (List PyVal)) : TableFile :=
  { df := { cols := ["id", "name"], rows := rows }
    meta := [("id", { type := "INT", is_serial := true, auto_increment_counter := c,
                      initial_counter_value := 1 }),
             ("name", { type := "TEXT" })] }

example :
    insertStmt "t0" (serialTF 1 []) (some ["name"]) [[.str "a"], [.str "b"]] =
      .ok (serialTF 3 [[.int 1, .str "a"], [.int 1, .str "b"]]) := by decide

example :
    insertStmt "t0" (serialTF 1 []) Option.none [[.str "5", .str "x"]] =
      .ok (serialTF 1 [[.int 5, .str "x"]]) := by decide

/-- One element of an evaluated Python list literal in the modelled `eval`
fragment: an integer or a string.  Python compares a `str` needle with `==`
against each element, so an `int` element never matches a string needle. -/
inductive PyElem where
  | int (n : Int)
  | str (s : String)
deriving DecidableEq, Repr

/-- Result of the modelled fragment of Python `eval` on a stored cell:
either a list of elements or some successfully evaluated non-list value. -/
inductive PyLit where
  | list (elems : List PyElem)
  | other
deriving DecidableEq, Repr

/-- The character of one decimal digit. -/
def digitChar : Nat → Char
  | 0 => '0'
  | 1 => '1'
  | 2 => '2'
  | 3 => '3'
  | 4 => '4'
  | 5 => '5'
  | 6 => '6'
  | 7 => '7'
  | 8 => '8'
  | _ => '9'

/-- Decimal spelling of a natural number, most significant digit first;
`fuel` bounds the recursion and any value above `n` suffices. -/
def natCharsAux : Nat → Nat → List Char
  | 0, _ => []
  | fuel + 1, n =>
    if n < 10 then [digitChar n]
    else natCharsAux fuel (n / 10) ++ [digitChar (n % 10)]

/-- Decimal spelling of a natural number (Python `str(n)` for `n ≥ 0`). -/
def natChars (n : Nat) : List Char :=
  natCharsAux (n + 1) n

/-- Python `str(i)` for an `int`: a minus sign followed by the decimal
spelling of the absolute value when negative. -/
def intChars (i : Int) : List Char :=
  if i < 0 then '-' :: natChars i.natAbs else natChars i.natAbs

/-- The longest ASCII-digit prefix and the remainder. -/
def spanDigits : List Char → (List Char × List Char)
  | [] => ([], [])
  | c :: rest =>
    if c.isDigit then (c :: (spanDigits rest).1, (spanDigits rest).2)
    else ([], c :: rest)

/-- Drop leading spaces. -/
def skipSpaces : List Char → List Char
  | [] => []
  | c :: rest => if c = ' ' then skipSpaces rest else c :: rest

/-- Scan a Python string literal body: the characters up to the next
occurrence of the quote `q`, and the rest (backslash escapes are outside
the modelled fragment; element gates exclude backslashes, so nothing is
proved about cells where this scan and Python would disagree). -/
def parseQuoted (q : Char) : List Char → Option (List Char × List Char)
  | [] => Option.none
  | c :: rest =>
    if c = q then some ([], rest)
    else (parseQuoted q rest).map (fun p => (c :: p.1, p.2))

/-- Parse the elements of a Python list literal after the opening bracket:
the elements and the characters after the closing bracket.  An element is a
quoted string or an integer literal (optional minus sign, digits, no
multi-digit leading zero — `eval('[01]')` is a `SyntaxError`); a trailing
comma is allowed, as in Python.  `fuel` bounds the recursion; any value
above the element count suffices. -/
def parseElems : Nat → List Char → Option (List PyElem × List Char)
  | 0, _ => Option.none
  | fuel + 1, input =>
    match skipSpaces input with
    | [] => Option.none
    | c :: rest =>
      if c = ']' then some ([], rest)
      else if c = '\'' || c = '"' then
        match parseQuoted c rest with
        | some (body, rest1) =>
          match skipSpaces rest1 with
          | [] => Option.none
          | d :: rest2 =>
            if d = ',' then
              (parseElems fuel rest2).map (fun p => (PyElem.str (String.mk body) :: p.1, p.2))
            else if d = ']' then some ([PyElem.str (String.mk body)], rest2)
            else Option.none
        | Option.none => Option.none
      else
        match spanDigits (if c = '-' then rest else c :: rest) with
        | (ds, rest1) =>
          if ds = [] then Option.none
          else if 1 < ds.length ∧ ds.headD ' ' = '0' then Option.none
          else
            match skipSpaces rest1 with
            | [] => Option.none
            | d :: rest2 =>
              if d = ',' then
                (parseElems fuel rest2).map (fun p =>
                  (PyElem.int (if c = '-' then -(natOfDigits ds : Int)
                               else (natOfDigits ds : Int)) :: p.1, p.2))
              else if d = ']' then
                some ([PyElem.int (if c = '-' then -(natOfDigits ds : Int)
                                   else (natOfDigits ds : Int))], rest2)
              else Option.none

/-- Modelled fragment of Python `eval` on a stored cell: a list literal of
quoted strings and integers gives `PyLit.list` with the same elements
Python produces; an integer, boolean, `None` or a single quoted string
gives the non-list `PyLit.other` (strings of these shapes evaluate to a
non-list value, or raise — e.g. `eval('007')` is a `SyntaxError` — and
both outcomes are covered wherever `.other` is relied on); anything else
raises (`Option.none`), e.g. a bare word raises `NameError`.  Cells outside
this fragment that Python does evaluate (floats, nested lists,
comprehensions, builtin names, …) also map to `Option.none`; every theorem
that relies on `Option.none` meaning `raise` therefore restricts its cells
to classes where that reading is provably right (`goodCellVal`,
`silentCell`).  Leading and trailing spaces are accepted, as by `eval`. -/
def pyEval (s : String) : Option PyLit :=
  match skipSpaces s.data with
  | [] => Option.none
  | c :: rest =>
    if c = '[' then
      match parseElems (s.length + 1) rest with
      | some (es, rem) => if skipSpaces rem = [] then some (.list es) else Option.none
      | Option.none => Option.none
    else if c = '\'' || c = '"' then
      match parseQuoted c rest with
      | some (_, rem) => if skipSpaces rem = [] then some .other else Option.none
      | Option.none => Option.none
    else
      let t := (skipSpaces (c :: rest).reverse).reverse
      if pyIsDigitChars t then some .other
      else
        match t with
        | c1 :: ds =>
          if c1 = '-' && pyIsDigitChars ds then some .other
          else if t = "True".data || t = "False".data || t = "None".data then some .other
          else Option.none
        | [] => Option.none

/-- Characters of Python `str(e)` for one list element: `repr` for a
string, the decimal spelling for an integer. -/
def pyElemChars : PyElem → List Char
  | .int n => intChars n
  | .str s => pyReprChars s

/-- Characters of Python `str(l)` for a list of elements, without the
surrounding brackets: elements joined by a comma and a space. -/
def pyStrElemsChars : List PyElem → List Char
  | [] => []
  | [e] => pyElemChars e
  | e :: rest => pyElemChars e ++ ',' :: ' ' :: pyStrElemsChars rest

/-- Python `str(l)` for a list of elements: the textual form the UPDATE
array helpers store back into a cell. -/
def pyStrElems (l : List PyElem) : String :=
  String.mk ('[' :: (pyStrElemsChars l ++ [']']))

example : pyEval "[]" = some (.list []) := by decide
example : pyEval (pyStrList ["a", "b"]) = some (.list [.str "a", .str "b"]) := by decide
example : pyEval "[1, 2]" = some (.list [.int 1, .int 2]) := by decide
example : pyEval "[-5, 'x']" = some (.list [.int (-5), .str "x"]) := by decide
example : pyEval "[01]" = Option.none := by decide
example : pyEval "oops" = Option.none := by decide
example : pyEval "5" = some .other := by decide
example : pyStrElems [.int 1, .int 2, .str "x"] = "[1, 2, 'x']" := by decide

/-- The `update_array` closure of `DataOperations.update_row`
(`data_ops.py` lines 207-218), on one masked cell: parse the stored cell
(blank and the literal `'[]'` count as empty), reset a non-list to empty,
append the element unless already present (a string needle never equals an
integer element), store `str(list)` back; an exception from `eval` yields
the one-element double-quoted list literal. -/
def update_array (new_val : String) (x : PyVal) : String :=
  match x with
  | .str s =>
    if s = "[]" then pyStrElems [.str new_val]
    else
      match pyEval s with
      | some (.list l) =>
        if l.contains (.str new_val) then pyStrElems l
        else pyStrElems (l ++ [.str new_val])
      | some .other => pyStrElems [.str new_val]
      | Option.none => "[\"" ++ new_val ++ "\"]"
  | .none => pyStrElems [.str new_val]
  | _ => "[\"" ++ new_val ++ "\"]"

/-- The `remove_from_array` closure of `DataOperations.update_row`
(`data_ops.py` lines 225-235): as `update_array`, but remove the first
occurrence of the element if present; an exception resets the cell to
`'[]'`. -/
def remove_from_array (value_to_remove : String) (x : PyVal) : String :=
  match x with
  | .str s =>
    if s = "[]" then pyStrElems []
    else
      match pyEval s with
      | some (.list l) =>
        pyStrElems (if l.contains (.str value_to_remove)
                    then l.erase (.str value_to_remove) else l)
      | some .other => pyStrElems []
      | Option.none => "[]"
  | .none => pyStrElems []
  | _ => "[]"

/-- A lowered WHERE predicate over one row given as column/value pairs. -/
abbrev RowPred := List (String × PyVal) → Bool

/-- Errors `DataOperations.update_row` can raise. -/
inductive UpdateError where
  | tableNotFound (t : String)
  | keyError (col : String)
  | columnKeyError (col : String)
deriving DecidableEq, Repr

/-- Right-hand side of one SET assignment, as classified by the source:
concatenation (`||`), subtraction (`-`), or a plain literal. -/
inductive SetRhs where
  | dpipe (raw : String)
  | sub (raw : String)
  | lit (v : PyVal)
deriving DecidableEq, Repr

/-- Masked column rewrite `df.loc[mask, c] = df.loc[mask, c].apply(f)`: the
read raises `KeyError` (`Option.none`) when the column is missing. -/
def DataFrame.mapColMasked (df : DataFrame) (mask : List Bool) (c : String)
    (f : PyVal → PyVal) : Option DataFrame :=
  if df.cols.contains c then
    let i := df.cols.indexOf c
    some { df with rows := ((df.rows.zip mask).map
      (fun p => if p.2 then p.1.set i (f (p.1.getD i PyVal.none)) else p.1)) }
  else Option.none

/-- Masked scalar assignment `df.loc[mask, c] = v`: a missing column is
created by enlargement, unmasked rows getting NaN. -/
def DataFrame.setColMasked (df : DataFrame) (mask : List Bool) (c : String) (v : PyVal) :
    DataFrame :=
  if df.cols.contains c then
    let i := df.cols.indexOf c
    { df with rows := (df.rows.zip mask).map (fun p => if p.2 then p.1.set i v else p.1) }
  else
    { cols := df.cols ++ [c]
      rows := (df.rows.zip mask).map (fun p => p.1 ++ [if p.2 then v else PyVal.none]) }

/-- The braces Python strips from the SET element (`.strip('\x7b\x7d')`). -/
def stripBraces (s : String) : String :=
  pyStrip [Char.ofNat 123, Char.ofNat 125] s

/-- One SET assignment (`data_ops.py` lines 200-240): `||` and `-` consult
the metadata (a missing column is a `KeyError`) and act only on ARRAY
columns, doing nothing on other types; a plain literal is assigned to the
masked rows directly, with no metadata consultation and no type check. -/
def applySet (meta : List (String × ColumnMeta)) (mask : List Bool) (df : DataFrame) :
    String × SetRhs → Except UpdateError DataFrame
  | (c, .dpipe raw) =>
    match meta.lookup c with
    | Option.none => .error (.keyError c)
    | some m =>
      if m.type = "ARRAY" then
        match df.mapColMasked mask c (fun x => .str (update_array (stripBraces raw) x)) with
        | some df1 => .ok df1
        | Option.none => .error (.columnKeyError c)
      else .ok df
  | (c, .sub raw) =>
    match meta.lookup c with
    | Option.none => .error (.keyError c)
    | some m =>
      if m.type = "ARRAY" then
        match df.mapColMasked mask c (fun x => .str (remove_from_array (stripBraces raw) x)) with
        | some df1 => .ok df1
        | Option.none => .error (.columnKeyError c)
      else .ok df
  | (c, .lit v) => .ok (df.setColMasked mask c v)

/-- Shallow embedding of `DataOperations.update_row` on one table
(`data_ops.py` lines 170-246): the mask is the lowered WHERE predicate over
the original rows (all rows when absent); the SET assignments apply in
order; the metadata file is never rewritten. -/
def update_row (tf : TableFile) (pred? : Option RowPred) (sets : List (String × SetRhs)) :
    Except UpdateError TableFile :=
  let mask := match pred? with
    | some p => tf.df.rows.map (fun r => p (tf.df.cols.zip r))
    | Option.none => tf.df.rows.map (fun _ => true)
  (sets.foldlM (fun df s => applySet tf.meta mask df s) tf.df).map
    (fun df1 => { df := df1, meta := tf.meta })

/-- Boolean-mask row selection `df[mask]`. -/
def boolFilter {α : Type} : List α → List Bool → List α
  | [], _ => []
  | _ :: _, [] => []
  | x :: xs, b :: bs => if b then x :: boolFilter xs bs else boolFilter xs bs

/-- Shallow embedding of `DataOperations.delete_row` on one table
(`data_ops.py` lines 248-279): with a WHERE clause keep the rows where the
lowered predicate is false (`mask = ~df.eval(condition)`); without one,
write an empty frame that keeps the columns. -/
def delete_row (df : DataFrame) (pred? : Option RowPred) : DataFrame :=
  match pred? with
  | some p =>
    let mask := df.rows.map (fun r => !p (df.cols.zip r))
    { cols := df.cols, rows := boolFilter df.rows mask }
  | Option.none => { cols := df.cols, rows := [] }

/-- In-memory state of the `Csvgres` controller together with the database
directories under the data root (`controller.py`, `database_ops.py`). -/
structure CsvgresState where
  databases : List String
  current_database : Option String
deriving DecidableEq, Repr

/-- Errors of the database/table ops. -/
inductive DbError where
  | alreadyExists (name : String)
  | notFound (name : String)
deriving DecidableEq, Repr

/-- `Csvgres.create_database` (`controller.py` lines 24-25): the ops layer
creates the directory (error when present); only then does the controller
point `current_database` at the new name. -/
def create_database (st : CsvgresState) (name : String) : Except DbError CsvgresState :=
  if st.databases.contains name then .error (.alreadyExists name)
  else .ok { databases := st.databases ++ [name], current_database := some name }

/-- `Csvgres.drop_database` (`controller.py` lines 27-28, `database_ops.py`
lines 37-59): the ops layer removes the directory tree (error when absent);
the controller passes `current_database` down but never assigns it, and the
guard comparing the two names is commented out in the source. -/
def drop_database (st : CsvgresState) (name : String) : Except DbError CsvgresState :=
  if st.databases.contains name then
    .ok { st with databases := st.databases.filter (fun d => d != name) }
  else .error (.notFound name)

/-- The database name each of `create_table`, `drop_table`, `insert`,
`select`, `update_row`, `delete_row` passes to its ops module
(`controller.py` lines 30-46): the caller's argument when supplied, else
the literal default `"csvgres"`; the controller state is not consulted. -/
def controllerTargetDb (_st : CsvgresState) (databaseName? : Option String) : String :=
  match databaseName? with
  | some d => d
  | Option.none => "csvgres"

/-- `ColumnDefinition` (`src/transformer/models/column.py`). -/
structure ColumnDefinition where
  name : String
  type : String
  is_serial : Bool := false
  not_null : Bool := false
  primary_key : Bool := false
  unique : Bool := false
  default : Option PyVal := Option.none
  initial_counter_value : Option Int := some 1
  auto_increment_counter : Option Int := some 1
deriving DecidableEq, Repr

/-- Python `x or 1` on the optional counter (`None` and `0` both give 1). -/
def pyOrOne : Option Int → Int
  | some n => if n = 0 then 1 else n
  | Option.none => 1

/-- Derivation of one column's JSON metadata from its extracted definition
(`table_ops.py` lines 44-70).  The ARRAY branch of lines 65-68 is guarded
by `hasattr(col, 'array_subtype')`, an attribute `ColumnDefinition` never
carries, so that branch is dead and not modelled. -/
def buildColMeta (col : ColumnDefinition) : ColumnMeta :=
  let m : ColumnMeta := { type := col.type }
  let m := if col.is_serial then
      { m with is_serial := true, initial_counter_value := pyOrOne col.initial_counter_value,
               auto_increment_counter := pyOrOne col.initial_counter_value }
    else m
  let m := if col.primary_key then { m with primary_key := true }
    else if col.not_null then { m with not_null := true } else m
  let m := if !col.primary_key && col.unique then { m with unique := true } else m
  match col.default with
  | some d => if !col.is_serial then { m with default := some d } else m
  | Option.none => m

/-- Python `d[k] = v` on an insertion-ordered association list: replace in
place when the key exists, append otherwise. -/
def dictInsert {α : Type} (l : List (String × α)) (k : String) (v : α) : List (String × α) :=
  if l.any (fun p => p.1 = k) then l.map (fun p => if p.1 = k then (k, v) else p)
  else l ++ [(k, v)]

/-- The tables of one database directory: CSV/JSON pairs keyed by name. -/
structure Database where
  tables : List (String × TableFile)
deriving DecidableEq, Repr

/-- The table pair named `t`, if its files exist. -/
def Database.find? (db : Database) (t : String) : Option TableFile :=
  db.tables.lookup t

/-- Persist new contents for table `t`. -/
def Database.setTable (db : Database) (t : String) (tf : TableFile) : Database :=
  { tables := db.tables.map (fun p => if p.1 = t then (t, tf) else p) }

/-- Shallow embedding of `TableOperations.create_table`
(`table_ops.py` lines 14-82): fail when the CSV already exists, else write
a header-only CSV naming every extracted column in order, together with the
JSON sidecar whose `columns` dict is built by keyed insertion. -/
def create_table (db : Database) (t : String) (columns : List ColumnDefinition) :
    Except DbError Database :=
  if (db.find? t).isSome then .error (.alreadyExists t)
  else
    let meta := columns.foldl (fun acc col => dictInsert acc col.name (buildColMeta col)) []
    .ok { tables := db.tables ++
      [(t, { df := { cols := columns.map (fun col => col.name), rows := [] }, meta := meta })] }

/-- Shallow embedding of `TableOperations.drop_table`: remove the pair. -/
def drop_table (db : Database) (t : String) : Except DbError Database :=
  if (db.find? t).isSome then .ok { tables := db.tables.filter (fun p => p.1 != t) }
  else .error (.notFound t)

/-- One parsed statement against a single database, as dispatched to the
ops modules by the controller. -/
inductive Op where
  | createTable (t : String) (columns : List ColumnDefinition)
  | dropTable (t : String)
  | insertInto (t : String) (cols? : Option (List String)) (valuesData : List (List PyVal))
  | updateTable (t : String) (pred? : Option RowPred) (sets : List (String × SetRhs))
  | deleteFrom (t : String) (pred? : Option RowPred)

/-- One engine step: dispatch the statement to its ops module;
`Option.none` is any raised error, observed with the files unchanged. -/
def step (now : String) (db : Database) : Op → Option Database
  | .createTable t columns => (create_table db t columns).toOption
  | .dropTable t => (drop_table db t).toOption
  | .insertInto t cols? values =>
    match db.find? t with
    | some tf => (insertStmt now tf cols? values).toOption.map (db.setTable t)
    | Option.none => Option.none
  | .updateTable t pred? sets =>
    match db.find? t with
    | some tf => (update_row tf pred? sets).toOption.map (db.setTable t)
    | Option.none => Option.none
  | .deleteFrom t pred? =>
    match db.find? t with
    | some tf => some (db.setTable t { df := delete_row tf.df pred?, meta := tf.meta })
    | Option.none => Option.none

/-- Run a statement list; a failed statement leaves the files as before. -/
def run (now : String) (db : Database) : List Op → Database
  | [] => db
  | op :: rest => run now ((step now db op).getD db) rest

/-- The schema-CSV coherence invariant: every table's CSV header equals the
list of its metadata `columns` keys, in order. -/
def headerInv (db : Database) : Prop :=
  ∀ p ∈ db.tables, p.2.df.cols = p.2.meta.map Prod.fst

/-- What the specification's words prescribe as the default INSERT target
list: all non-SERIAL columns in declaration order (stated for comparison
with the source's `resolveInsertColumns`). -/
def specDefaultTargetColumns (meta : List (String × ColumnMeta)) : List String :=
  (meta.filter (fun p => !p.2.is_serial)).map Prod.fst

/-- Iterated single-row INSERTs of the given `name` values into the
serial/TEXT table, stopping at the first error. -/
def insertEach (now : String) (tf : TableFile) : List String → Except InsertError TableFile
  | [] => .ok tf
  | v :: rest =>
    match insertStmt now tf (some ["name"]) [[.str v]] with
    | .ok tf1 => insertEach now tf1 rest
    | .error e => .error e

/-- The rows the serial/TEXT table accumulates across single-row inserts
starting from counter `c`. -/
def serialRows (c : Int) : List String → List (List PyVal)
  | [] => []
  | v :: vs => [.int c, .str (pyStripQuotes v)] :: serialRows (c + 1) vs

/-- A one-column INT table with no rows. -/
def intTF : TableFile :=
  { df := { cols := ["n"], rows := [] }, meta := [("n", { type := "INT" })] }

/-- Metadata of the spec's `users` example: `id` INT PRIMARY KEY, `name`
TEXT, `age` INT. -/
def usersMeta : List (String × ColumnMeta) :=
  [("id", { type := "INT", primary_key := true }),
   ("name", { type := "TEXT" }),
   ("age", { type := "INT" })]

/-- The `users` table holding the row `(1, John, 30)`. -/
def usersTF : TableFile :=
  { df := { cols := ["id", "name", "age"], rows := [[.int 1, .str "John", .int 30]] }
    meta := usersMeta }

/-- Metadata of a plain ARRAY column. -/
def arrayColMeta : ColumnMeta := { type := "ARRAY" }

/-- A one-column ARRAY table whose single cell holds foreign text that
Python `eval` cannot evaluate. -/
def oopsTF : TableFile :=
  { df := { cols := ["c"], rows := [[.str "oops"]] }, meta := [("c", arrayColMeta)] }

/-- A one-column ARRAY table whose single cell holds the empty-list
literal. -/
def emptyCellTF : TableFile :=
  { df := { cols := ["c"], rows := [[.str "[]"]] }, meta := [("c", arrayColMeta)] }

/-- Elements whose Python `repr` round-trips through the modelled `eval`:
no quote of either kind, no backslash (`repr` would escape it), and only
printable ASCII (`repr` escapes control characters, and a raw newline
inside a quoted literal is a Python `SyntaxError`). -/
def goodElem (s : String) : Bool :=
  !s.data.contains '\'' && !s.data.contains '"' && !s.data.contains '\\' &&
    s.data.all (fun c => 32 ≤ c.toNat && c.toNat ≤ 126)

/-- A list element that round-trips through `str`/`eval`: any integer, or a
`goodElem` string. -/
def goodLit : PyElem → Bool
  | .int _ => true
  | .str s => goodElem s

/-- Cells the array helpers read as a list they can faithfully re-store:
blank, the empty-list literal, or a string `eval` parses as a list of
round-tripping integer and string elements. -/
def goodCellVal : PyVal → Bool
  | .str s => s == "[]" || (match pyEval s with
      | some (.list l) => l.all goodLit
      | _ => false)
  | .none => true
  | _ => false

/-- Cells that are exactly the canonical textual form of a non-empty list
of round-tripping elements not containing `v`, or the empty-list literal. -/
def canonicalCellNo (v : String) : PyVal → Bool
  | .str s => s == "[]" || (match pyEval s with
      | some (.list l) =>
        l.all goodLit && !l.contains (.str v) && (pyStrElems l == s) && !l.isEmpty
      | _ => false)
  | _ => false

/-- ASCII letters and the underscore: the characters of a Python name. -/
def identChar (c : Char) : Bool :=
  (65 ≤ c.toNat && c.toNat ≤ 90) || (97 ≤ c.toNat && c.toNat ≤ 122) || c = '_'

/-- Cells on which the `update_array`/`remove_from_array` closures take one
of their two silent non-list paths — Python `eval` either raises, or yields
a value that is not a list, so the closures store a fresh one-element (or
empty) list.  The class is a positively-described fragment so that no cell
Python evaluates to a list is admitted: a non-string cell (`eval` raises
`TypeError` on a non-string, and `NaN` takes the explicit empty branch);
the empty-list literal; a string the modelled `eval` reads as a scalar
(such strings — optionally space-padded digits, `-`digits,
`True`/`False`/`None`, or one quoted literal followed only by spaces —
evaluate to an `int`/`bool`/`None`/`str` or raise, never to a list); the
empty string (a `SyntaxError`); a pure name of letters and underscores
(a keyword is a `SyntaxError`, an unbound name a `NameError`, and every
name visible inside the closure — the builtins, the `data_ops` module
globals, which are all modules/classes/functions, and the frame locals
`x`/`new_val`/`value_to_remove`, which are strings — is bound to a
non-list); or a string containing `$` but no quote and no `#` (with no
quote the `$` cannot sit inside a string literal, with no `#` it cannot be
commented out, and `$` is not part of any Python token: a guaranteed
`SyntaxError`). -/
def silentCell : PyVal → Bool
  | .str s =>
    s == "[]" ||
    (match pyEval s with
     | some (.list _) => false
     | some .other => true
     | Option.none =>
       s == "" || s.data.all identChar ||
       (s.data.contains '$' && !s.data.contains '\'' && !s.data.contains '"' &&
         !s.data.contains '#'))
  | _ => true

/-- The metadata column keys of table `t` in `db` (empty when absent). -/
def metaKeysOf (db : Database) (t : String) : List String :=
  match db.find? t with
  | some tf => tf.meta.map Prod.fst
  | Option.none => []

/-- A trace creating a one-column table, inserting a row, then updating a
column that no table declares. -/
def ghostOps : List Op :=
  [.createTable "users" [{ name := "id", type := "INT" }],
   .insertInto "users" Option.none [[.str "1"]],
   .updateTable "users" Option.none [("ghost", .lit (.str "5"))]]

/-- C5 counterexample: after a successful `create_database` sets the
current database to `testdb`, an operation invoked without an explicit
database name still targets the default `"csvgres"`, not `testdb`. -/
theorem C5_counterexample :
    create_database { databases := [], current_database := Option.none } "testdb" =
      .ok { databases := ["testdb"], current_database := some "testdb" } ∧
    controllerTargetDb { databases := ["testdb"], current_database := some "testdb" }
      Option.none = "csvgres" ∧
    ("csvgres" : String) ≠ "testdb" := by
  refine ⟨by decide, by decide, by decide⟩

/-- C5 (amended): a table or data operation invoked without an explicit
database name always targets the literal default `"csvgres"`; the
controller's current-database state is never consulted by these six
operations (it only changes via `create_database`). -/
theorem C5_amended (st : CsvgresState) (databaseName? : Option String) :
    controllerTargetDb st databaseName? = databaseName?.getD "csvgres" ∧
    (∀ st2 : CsvgresState,
      controllerTargetDb st2 databaseName? = controllerTargetDb st databaseName?) := by
  refine ⟨?_, fun st2 => ?_⟩ <;> cases databaseName? <;> rfl

/-- C9: a successful `drop_database` removes the directory but never
modifies the controller's current-database pointer, including when it
drops the database that pointer names. -/
theorem C9_drop_preserves_pointer (st : CsvgresState) (name : String)
    (h : st.databases.contains name = true) :
    ∃ st2, drop_database st name = .ok st2 ∧
      st2.current_database = st.current_database := by
  refine ⟨{ st with databases := st.databases.filter (fun d => d != name) }, ?_, rfl⟩
  unfold drop_database
  rw [h]
  rfl

/-- C9 witness: dropping the currently-connected database `d` succeeds and
leaves the pointer at `d`. -/
theorem C9_witness :
    ∃ st2, drop_database { databases := ["d"], current_database := some "d" } "d" = .ok st2 ∧
      st2.current_database =
        (CsvgresState.mk ["d"] (some "d")).current_database :=
  C9_drop_preserves_pointer { databases := ["d"], current_database := some "d" } "d" (by decide)

/-- Selecting rows by a mask computed from the rows themselves is
`List.filter`. -/
theorem boolFilter_map_eq_filter {α : Type} (f : α → Bool) :
    ∀ xs : List α, boolFilter xs (xs.map f) = xs.filter f
  | [] => rfl
  | x :: xs => by
    simp only [List.map_cons, boolFilter, List.filter_cons]
    cases h : f x <;> simp [h, boolFilter_map_eq_filter f xs]

/-- C6: a DELETE with a WHERE clause keeps exactly the rows on which the
lowered predicate is false, in their original order, and leaves the header
unchanged; a DELETE without WHERE persists zero data rows under the same
header. -/
theorem C6_delete_row (df : DataFrame) (p : RowPred) :
    delete_row df (some p) =
      { cols := df.cols, rows := df.rows.filter (fun r => !p (df.cols.zip r)) } ∧
    delete_row df Option.none = { cols := df.cols, rows := [] } := by
  refine ⟨?_, rfl⟩
  unfold delete_row
  exact congrArg (fun rs => DataFrame.mk df.cols rs)
    (boolFilter_map_eq_filter (fun r => !p (df.cols.zip r)) df.rows)

/-- C4 counterexample: inserting the all-digit string literal `"123"` into
an INT column succeeds, storing the integer 123 — no TypeError. -/
theorem C4_counterexample :
    insertStmt "t0" intTF Option.none [[.str "123"]] =
      .ok { df := { cols := ["n"], rows := [[.int 123]] },
            meta := [("n", { type := "INT" })] } ∧
    parse_value_with_type "t0" (.str "123") "INT" = some (.int 123) := by
  refine ⟨by decide, by decide⟩

/-- C1 counterexample: one INSERT of two rows into a SERIAL table with
counter 1 gives both rows the serial value 1 (and bumps the counter to 3);
the column does not take the values 1, 2. -/
theorem C1_counterexample :
    insertStmt "t0" (serialTF 1 []) (some ["name"]) [[.str "a"], [.str "b"]] =
      .ok (serialTF 3 [[.int 1, .str "a"], [.int 1, .str "b"]]) ∧
    (serialTF 3 [[.int 1, .str "a"], [.int 1, .str "b"]]).df.col "id" ≠
      [.int 1, .int 2] := by
  refine ⟨by decide, by decide⟩

/-- C2 counterexample: with no explicit column list the source targets all
declared columns — SERIAL included — so `VALUES ('5','x')` places 5 in the
SERIAL `id` column, where the spec's non-SERIAL target list would be
`["name"]`. -/
theorem C2_counterexample :
    resolveInsertColumns (serialTF 1 []).meta Option.none = .ok ["id", "name"] ∧
    specDefaultTargetColumns (serialTF 1 []).meta = ["name"] ∧
    (["id", "name"] : List String) ≠ ["name"] ∧
    insertStmt "t0" (serialTF 1 []) Option.none [[.str "5", .str "x"]] =
      .ok (serialTF 1 [[.int 5, .str "x"]]) := by
  refine ⟨by decide, by decide, by decide, by decide⟩

/-- C7 counterexample: on a cell whose text `eval` cannot parse, the first
array append stores the double-quoted `["x"]`, the second rewrites it to
the single-quoted `str`-form — so the second application is not a no-op —
and an append followed by a removal yields `'[]'`, not the original cell. -/
theorem C7_counterexample :
    update_row oopsTF Option.none [("c", SetRhs.dpipe "x")] =
      .ok { df := { cols := ["c"], rows := [[.str "[\"x\"]"]] },
            meta := [("c", arrayColMeta)] } ∧
    update_row { df := { cols := ["c"], rows := [[.str "[\"x\"]"]] },
                 meta := [("c", arrayColMeta)] }
        Option.none [("c", SetRhs.dpipe "x")] =
      .ok { df := { cols := ["c"], rows := [[.str (pyStrList ["x"])]] },
            meta := [("c", arrayColMeta)] } ∧
    PyVal.str (pyStrList ["x"]) ≠ .str "[\"x\"]" ∧
    update_row { df := { cols := ["c"], rows := [[.str "[\"x\"]"]] },
                 meta := [("c", arrayColMeta)] }
        Option.none [("c", SetRhs.sub "x")] =
      .ok { df := { cols := ["c"], rows := [[.str "[]"]] },
            meta := [("c", arrayColMeta)] } ∧
    PyVal.str "[]" ≠ .str "oops" := by
  refine ⟨by decide, by decide, by decide, by decide, by decide⟩

/-- C8 counterexample: an UPDATE assigning a literal to a column the table
does not declare succeeds and enlarges the CSV with that column, so the
header no longer equals the metadata keys. -/
theorem C8_counterexample :
    run "t0" { tables := [] } ghostOps =
      { tables := [("users",
          { df := { cols := ["id", "ghost"], rows := [[.int 1, .str "5"]] },
            meta := [("id", { type := "INT" })] })] } ∧
    ¬ headerInv (run "t0" { tables := [] } ghostOps) := by
  have h : run "t0" { tables := [] } ghostOps =
      { tables := [("users",
          { df := { cols := ["id", "ghost"], rows := [[.int 1, .str "5"]] },
            meta := [("id", { type := "INT" })] })] } := by decide
  refine ⟨h, ?_⟩
  rw [h]
  intro hI
  have := hI ("users",
      { df := { cols := ["id", "ghost"], rows := [[.int 1, .str "5"]] },
        meta := [("id", { type := "INT" })] }) (by simp)
  simp at this

/-- The type handler on a string literal against the INT type: strip one
layer of quotes, accept exactly the all-digit strings. -/
theorem parse_str_INT (now s : String) :
    parse_value_with_type now (.str s) "INT" =
      if pyIsDigit (pyStripQuotes s) then some (.int (pyIntOfString (pyStripQuotes s)))
      else Option.none := by
  have c1 : substrIn "CHAR" (pyUpper "INT") = false := by decide
  have c2 : substrIn "TEXT" (pyUpper "INT") = false := by decide
  have c3 : substrIn "INT" (pyUpper "INT") = true := by decide
  cases hdig : pyIsDigit (pyStripQuotes s) <;>
    simp [parse_value_with_type, c1, c2, c3, hdig]

/-- C4 (amended): a string literal provided for a column of type INT fails
with TypeError exactly when the quote-stripped literal is not all digits;
an all-digit string literal instead coerces to the integer it spells and
the INSERT succeeds. -/
theorem C4_amended (s : String) :
    (pyIsDigit (pyStripQuotes s) = false →
      insertStmt "t0" intTF Option.none [[.str s]] = .error (.typeError "n")) ∧
    (pyIsDigit (pyStripQuotes s) = true →
      insertStmt "t0" intTF Option.none [[.str s]] =
        .ok { df := { cols := ["n"], rows := [[.int (pyIntOfString (pyStripQuotes s))]] },
              meta := [("n", { type := "INT" })] }) := by
  constructor <;> intro h <;>
    simp [insertStmt, insertPrepare, resolveInsertColumns, buildNewRows, buildRow, assocSet,
      applySerialDefaults, typeValidate, DataFrame.mapColM, notNullCheck, uniqueCheck,
      DataFrame.concat, DataFrame.col, intTF, parse_str_INT, h, hasDup,
      Bind.bind, Except.bind, Except.map, List.enum, List.enumFrom, List.mapM,
      List.mapM.loop]

/-- C4 witness: `"12a"` raises TypeError, `"123"` inserts the integer. -/
theorem C4_witness :
    insertStmt "t0" intTF Option.none [[.str "12a"]] = .error (.typeError "n") ∧
    insertStmt "t0" intTF Option.none [[.str "123"]] =
      .ok { df := { cols := ["n"], rows := [[.int (pyIntOfString (pyStripQuotes "123"))]] },
            meta := [("n", { type := "INT" })] } :=
  ⟨(C4_amended "12a").1 (by decide), (C4_amended "123").2 (by decide)⟩

/-- One single-row INSERT into the serial/TEXT table: the appended row
receives the current counter and the quote-stripped name value, and the
counter advances by exactly one. -/
theorem insert_serial_step (now : String) (c : Int) (rows : List (List PyVal)) (v : String) :
    insertStmt now (serialTF c rows) (some ["name"]) [[.str v]] =
      .ok (serialTF (c + 1) (rows ++ [[.int c, .str (pyStripQuotes v)]])) := by
  rfl

/-- `List.mapM.loop` of a function that never fails. -/
theorem mapM_loop_some {α β : Type} (f : α → β) :
    ∀ (l : List α) (acc : List β),
      List.mapM.loop (fun a => some (f a)) l acc = some (acc.reverse ++ l.map f)
  | [], acc => by simp [List.mapM.loop]
  | a :: l, acc => by
    simp [List.mapM.loop, mapM_loop_some f l (f a :: acc)]

/-- `List.mapM` of a function that never fails is `some` of the map. -/
theorem mapM_some {α β : Type} (f : α → β) (l : List α) :
    l.mapM (fun a => some (f a)) = some (l.map f) := by
  simp [List.mapM, mapM_loop_some]

/-- The serial ids accumulated by `serialRows` are the consecutive values
`c, c+1, ...`, in order. -/
theorem serialRows_ids : ∀ (vs : List String) (c : Int),
    (serialRows c vs).map (fun r => r.getD 0 PyVal.none) =
      (List.range vs.length).map (fun i : Nat => PyVal.int (c + (i : Int)))
  | [], c => by simp [serialRows]
  | v :: vs, c => by
    rw [serialRows, List.map_cons, serialRows_ids vs (c + 1)]
    rw [List.length_cons, List.range_succ_eq_map, List.map_cons, List.map_map]
    refine congrArg₂ List.cons (by simp) (List.map_congr_left fun i _ => ?_)
    show PyVal.int (c + 1 + (i : Int)) = PyVal.int (c + ((i + 1 : Nat) : Int))
    refine congrArg PyVal.int ?_
    push_cast
    ring

/-- C1 (amended): within one INSERT every row whose SERIAL cell is
unassigned receives the same current `auto_increment_counter`, and the
counter then advances by the number of such rows (the source assigns one
scalar per statement, not per row); consequently, across a sequence of N
single-row INSERTs the SERIAL column takes the values
`initial, initial+1, ..., initial+N-1`, in order. -/
theorem C1_amended (now : String) :
    (∀ (c : Int) (l : List (List PyVal)),
      applySerialDefaults now (serialTF c []).meta { cols := ["id", "name"], rows := l } =
        .ok ({ cols := ["id", "name"],
               rows := l.map (fun r =>
                 r.set 0 (if r.getD 0 PyVal.none = PyVal.none then .int c
                          else r.getD 0 PyVal.none)) },
             [("id", { type := "INT", is_serial := true,
                       auto_increment_counter :=
                         c + ((l.map (fun r => r.getD 0 PyVal.none)).filter
                           (fun v => v = PyVal.none)).length,
                       initial_counter_value := 1 }),
              ("name", { type := "TEXT" })])) ∧
    (∀ (c : Int) (rows : List (List PyVal)) (vs : List String),
      insertEach now (serialTF c rows) vs =
        .ok (serialTF (c + vs.length) (rows ++ serialRows c vs))) ∧
    (∀ (c : Int) (vs : List String),
      (serialRows c vs).map (fun r => r.getD 0 PyVal.none) =
        (List.range vs.length).map (fun i : Nat => PyVal.int (c + (i : Int)))) := by
  refine ⟨fun c l => ?_, fun c rows vs => ?_, fun c vs => serialRows_ids vs c⟩
  · simp [applySerialDefaults, serialTF, DataFrame.mapColM, DataFrame.col, mapM_some,
      mapM_loop_some, Except.map]
  · induction vs generalizing c rows with
    | nil => simp [insertEach, serialRows, serialTF]
    | cons v vs ih =>
      simp only [insertEach, insert_serial_step]
      rw [ih (c + 1)]
      refine congrArg Except.ok ?_
      rw [show serialRows c (v :: vs) =
        [PyVal.int c, PyVal.str (pyStripQuotes v)] :: serialRows (c + 1) vs from rfl]
      refine congrArg₂ serialTF ?_ ?_
      · simp only [List.length_cons]
        push_cast
        ring
      · simp [List.append_assoc]

/-- `assocSet` leaves an association list alone when no entry carries the
key. -/
theorem assocSet_not_mem (l : List (String × PyVal)) (k : String) (v : PyVal)
    (h : ∀ p ∈ l, p.1 ≠ k) : assocSet l k v = l := by
  induction l with
  | nil => rfl
  | cons a l ih =>
    simp only [assocSet, List.map_cons]
    rw [if_neg (h a (by simp))]
    exact congrArg _ (ih fun p hp => h p (by simp [hp]))

/-- The second component of an `enumFrom` member is a list member. -/
theorem snd_mem_of_mem_enumFrom {α : Type} :
    ∀ (l : List α) (n : Nat) (q : Nat × α), q ∈ l.enumFrom n → q.2 ∈ l
  | [], _, _, h => by simp [List.enumFrom] at h
  | a :: l, n, q, h => by
    simp only [List.enumFrom] at h
    rcases List.mem_cons.mp h with hq | hq
    · subst hq; simp
    · exact List.mem_cons_of_mem a (snd_mem_of_mem_enumFrom l (n + 1) q hq)

/-- The `row_dict` fold never touches an entry whose key no pending insert
column carries. -/
theorem buildRow_fold_cons (row : List PyVal) (a : String × PyVal) :
    ∀ (todo : List (Nat × String)) (acc : List (String × PyVal)),
      (∀ q ∈ todo, q.2 ≠ a.1) →
      List.foldl
        (fun acc2 p => if p.1 < row.length then assocSet acc2 p.2 (row.getD p.1 PyVal.none)
          else acc2) (a :: acc) todo =
      a :: List.foldl
        (fun acc2 p => if p.1 < row.length then assocSet acc2 p.2 (row.getD p.1 PyVal.none)
          else acc2) acc todo
  | [], acc, _ => rfl
  | q :: todo, acc, h => by
    have hq : q.2 ≠ a.1 := h q (by simp)
    have hstep : (if q.1 < row.length then assocSet (a :: acc) q.2 (row.getD q.1 PyVal.none)
        else (a :: acc)) =
        a :: (if q.1 < row.length then assocSet acc q.2 (row.getD q.1 PyVal.none) else acc) := by
      by_cases hlt : q.1 < row.length
      · simp only [if_pos hlt, assocSet, List.map_cons]
        rw [if_neg (fun he => hq he.symm)]
      · simp [if_neg hlt]
    simp only [List.foldl_cons, hstep]
    exact buildRow_fold_cons row a todo _ (fun p hp => h p (by simp [hp]))

/-- The `row_dict` built with all declared columns as targets assigns the
i-th tuple value to the i-th declared column (`None` past the tuple). -/
theorem buildRow_fold (row : List PyVal) :
    ∀ (keys : List String) (n : Nat), keys.Nodup →
      (List.foldl
        (fun acc p => if p.1 < row.length then assocSet acc p.2 (row.getD p.1 PyVal.none)
          else acc)
        (keys.map (fun k => (k, PyVal.none))) (keys.enumFrom n)).map Prod.snd =
      (List.range keys.length).map (fun i : Nat => row.getD (n + i) PyVal.none)
  | [], n, _ => rfl
  | k :: keys, n, h => by
    have hnd : keys.Nodup := h.of_cons
    have hk : k ∉ keys := by
      intro hmem
      exact (List.nodup_cons.mp h).1 hmem
    have hstep : (if n < row.length then
        assocSet ((k :: keys).map (fun k2 => (k2, PyVal.none))) k (row.getD n PyVal.none)
        else ((k :: keys).map (fun k2 => (k2, PyVal.none)))) =
        (k, row.getD n PyVal.none) :: keys.map (fun k2 => (k2, PyVal.none)) := by
      by_cases hlt : n < row.length
      · simp only [if_pos hlt, List.map_cons, assocSet, if_pos rfl]
        refine congrArg _ ?_
        have := assocSet_not_mem (keys.map (fun k2 => (k2, PyVal.none))) k
          (row.getD n PyVal.none) ?_
        · simpa [assocSet] using this
        · intro p hp
          obtain ⟨k2, hk2, rfl⟩ := List.mem_map.mp hp
          exact fun he => hk (he ▸ hk2)
      · rw [if_neg hlt, List.map_cons]
        refine congrArg₂ List.cons ?_ rfl
        rw [List.getD_eq_default _ _ (Nat.le_of_not_lt hlt)]
    rw [List.enumFrom_cons, List.foldl_cons]
    rw [show (if (n, k).1 < row.length then
        assocSet ((k :: keys).map (fun k2 => (k2, PyVal.none))) (n, k).2
          (row.getD (n, k).1 PyVal.none)
        else ((k :: keys).map (fun k2 => (k2, PyVal.none)))) =
        (k, row.getD n PyVal.none) :: keys.map (fun k2 => (k2, PyVal.none)) from hstep]
    rw [buildRow_fold_cons row (k, row.getD n PyVal.none) (keys.enumFrom (n + 1))
      (keys.map (fun k2 => (k2, PyVal.none)))
      (fun q hq => fun he => hk (by
        have h2 : q.2 ∈ keys := snd_mem_of_mem_enumFrom keys (n + 1) q hq
        rw [he] at h2
        exact h2))]
    simp only [List.map_cons, List.length_cons, List.range_succ_eq_map, List.map_map]
    rw [buildRow_fold row keys (n + 1) hnd]
    refine congrArg₂ List.cons (by simp) (List.map_congr_left fun i _ => ?_)
    show row.getD (n + 1 + i) PyVal.none = row.getD (n + (i + 1)) PyVal.none
    rw [show n + 1 + i = n + (i + 1) by omega]

/-- C2 (amended): with no explicit column list the source targets ALL
declared columns in declaration order, SERIAL columns included: the i-th
tuple value is assigned to the i-th declared column, and a tuple shorter
than the declaration leaves the remaining columns NULL.  (The spec's
exclusion of SERIAL columns from the default target list does not hold;
see the counterexample.) -/
theorem C2_amended (meta : List (String × ColumnMeta)) (row : List PyVal)
    (h : (meta.map Prod.fst).Nodup) :
    resolveInsertColumns meta Option.none = .ok (meta.map Prod.fst) ∧
    (buildNewRows meta (meta.map Prod.fst) [row]).rows =
      [(List.range (meta.map Prod.fst).length).map
        (fun i : Nat => row.getD i PyVal.none)] := by
  refine ⟨rfl, ?_⟩
  simp only [buildNewRows, List.map_cons, List.map_nil]
  refine congrArg₂ List.cons ?_ rfl
  unfold buildRow
  rw [show (meta.map Prod.fst).enum = (meta.map Prod.fst).enumFrom 0 from rfl]
  rw [buildRow_fold row (meta.map Prod.fst) 0 h]
  exact List.map_congr_left fun i _ => by rw [Nat.zero_add]

/-- C2 witness: the three-column `users` metadata with a two-value tuple:
`id` gets 1, `name` gets the string, `age` stays NULL. -/
theorem C2_witness :
    resolveInsertColumns usersMeta Option.none = .ok (usersMeta.map Prod.fst) ∧
    (buildNewRows usersMeta (usersMeta.map Prod.fst) [[.int 1, .str "J"]]).rows =
      [(List.range (usersMeta.map Prod.fst).length).map
        (fun i : Nat => [PyVal.int 1, PyVal.str "J"].getD i PyVal.none)] :=
  C2_amended usersMeta [.int 1, .str "J"] (by decide)

/-- When some UNIQUE or PRIMARY KEY column of the combined frame holds a
duplicate, the constraint loop of `insert` raises ConstraintError (at its
first offending column). -/
theorem uniqueCheck_error :
    ∀ (meta : List (String × ColumnMeta)) (df : DataFrame) (c : String) (m : ColumnMeta),
      (c, m) ∈ meta → (m.unique || m.primary_key) = true → hasDup (df.col c) = true →
      ∃ c2, uniqueCheck meta df = .error (.constraintError c2)
  | [], _, _, _, h, _, _ => absurd h (List.not_mem_nil _)
  | (c0, m0) :: rest, df, c, m, hmem, hflag, hdup => by
    cases hg : ((m0.unique || m0.primary_key) && hasDup (df.col c0)) with
    | true => exact ⟨c0, by simp [uniqueCheck, hg]⟩
    | false =>
      rcases List.mem_cons.mp hmem with he | hmem2
      · exfalso
        have hc : c = c0 := congrArg Prod.fst he
        have hm : m = m0 := congrArg Prod.snd he
        rw [← hc, ← hm, hflag, hdup] at hg
        exact Bool.true_eq_false.mp hg
      · obtain ⟨c2, hc2⟩ := uniqueCheck_error rest df c m hmem2 hflag hdup
        exact ⟨c2, by simp [uniqueCheck, hg, hc2]⟩

/-- C3: an INSERT whose prepared new rows duplicate a value of a PRIMARY
KEY or UNIQUE column across the combined set of existing and new rows
fails with ConstraintError; the error is raised before either file write,
so the table's CSV and metadata keep their previous contents. -/
theorem C3_unique_duplicate_rejected (now : String) (tf : TableFile)
    (cols? : Option (List String)) (valuesData : List (List PyVal))
    (newRows : DataFrame) (meta1 : List (String × ColumnMeta))
    (hprep : insertPrepare now tf.meta cols? valuesData = .ok (newRows, meta1))
    (c : String) (m : ColumnMeta) (hmem : (c, m) ∈ meta1)
    (hflag : (m.unique || m.primary_key) = true)
    (hdup : hasDup ((tf.df.concat newRows).col c) = true) :
    (∃ c2, insertStmt now tf cols? valuesData = .error (.constraintError c2)) ∧
    runInsertOp now tf cols? valuesData = tf := by
  obtain ⟨c2, hc2⟩ := uniqueCheck_error meta1 (tf.df.concat newRows) c m hmem hflag hdup
  have hins : insertStmt now tf cols? valuesData = .error (.constraintError c2) := by
    simp [insertStmt, hprep, Bind.bind, Except.bind, hc2]
  exact ⟨⟨c2, hins⟩, by simp [runInsertOp, hins]⟩

/-- C3 witness: the spec's scenario — a second row with `id = 1` against
the PRIMARY KEY on `id` is rejected and the `users` files are unchanged. -/
theorem C3_witness :
    insertPrepare "t0" usersTF.meta Option.none [[.str "1", .str "Jane", .str "29"]] =
      .ok ({ cols := ["id", "name", "age"], rows := [[.int 1, .str "Jane", .int 29]] },
           usersMeta) ∧
    ((∃ c2, insertStmt "t0" usersTF Option.none [[.str "1", .str "Jane", .str "29"]] =
        .error (.constraintError c2)) ∧
      runInsertOp "t0" usersTF Option.none [[.str "1", .str "Jane", .str "29"]] = usersTF) :=
  ⟨by decide,
   C3_unique_duplicate_rejected "t0" usersTF Option.none
    [[.str "1", .str "Jane", .str "29"]]
    { cols := ["id", "name", "age"], rows := [[.int 1, .str "Jane", .int 29]] }
    usersMeta (by decide) "id" { type := "INT", primary_key := true }
    (by decide) (by decide) (by decide)⟩

/-- The conjuncts of a `goodElem` test, separated. -/
theorem goodElem_parts (s : String) (h : goodElem s = true) :
    s.data.contains '\'' = false ∧ s.data.contains '"' = false ∧
      s.data.contains '\\' = false := by
  unfold goodElem at h
  rcases Bool.and_eq_true_iff.mp h with ⟨h3, -⟩
  rcases Bool.and_eq_true_iff.mp h3 with ⟨h2, hc⟩
  rcases Bool.and_eq_true_iff.mp h2 with ⟨ha, hb⟩
  exact ⟨by simpa using ha, by simpa using hb, by simpa using hc⟩

/-- A digit character is not any fixed non-digit character. -/
theorem isDigit_ne (c : Char) (h : c.isDigit = true) (d : Char)
    (hd : d.isDigit = false) : ¬c = d := by
  intro he
  rw [he, hd] at h
  cases h

/-- The digit characters decode and classify as expected. -/
theorem digitChar_spec (d : Nat) (h : d < 10) :
    (digitChar d).toNat = 48 + d ∧ (digitChar d).isDigit = true := by
  interval_cases d <;> exact ⟨by decide, by decide⟩

/-- Only zero spells as the zero digit. -/
theorem digitChar_eq_zero (d : Nat) (h : d < 10) (hz : digitChar d = '0') : d = 0 := by
  interval_cases d <;> revert hz <;> decide

/-- Decoding a one-digit spelling. -/
theorem natOfDigits_single (c : Char) : natOfDigits [c] = c.toNat - 48 := by
  unfold natOfDigits
  simp only [List.foldl_cons, List.foldl_nil]
  omega

/-- Decoding steps over a final digit. -/
theorem natOfDigits_append_digit (ds : List Char) (c : Char) :
    natOfDigits (ds ++ [c]) = natOfDigits ds * 10 + (c.toNat - 48) := by
  unfold natOfDigits
  rw [List.foldl_append]
  rfl

/-- The decimal spelling of a natural number with sufficient fuel is a
non-empty digit string with no leading zero that decodes to the number. -/
theorem natCharsAux_spec :
    ∀ (fuel n : Nat), n < fuel →
      natCharsAux fuel n ≠ [] ∧
      (natCharsAux fuel n).all Char.isDigit = true ∧
      natOfDigits (natCharsAux fuel n) = n ∧
      ((natCharsAux fuel n).headD ' ' = '0' → n = 0)
  | 0, n, h => absurd h (Nat.not_lt_zero n)
  | fuel + 1, n, h => by
    unfold natCharsAux
    by_cases h10 : n < 10
    · rw [if_pos h10]
      obtain ⟨ht, hd⟩ := digitChar_spec n h10
      refine ⟨by simp, by simp [hd], ?_, fun hz => ?_⟩
      · rw [natOfDigits_single, ht]
        omega
      · rw [List.headD_cons] at hz
        exact digitChar_eq_zero n h10 hz
    · rw [if_neg h10]
      have hlt : n / 10 < fuel := by
        have h1 : n / 10 < n := Nat.div_lt_self (by omega) (by omega)
        omega
      obtain ⟨hne, hall, hval, hz⟩ := natCharsAux_spec fuel (n / 10) hlt
      obtain ⟨ht, hd⟩ := digitChar_spec (n % 10) (Nat.mod_lt n (by omega))
      refine ⟨by simp, ?_, ?_, fun hzz => ?_⟩
      · rw [List.all_append]
        simp [hall, hd]
      · rw [natOfDigits_append_digit, hval, ht]
        omega
      · cases hpre : natCharsAux fuel (n / 10) with
        | nil => exact absurd hpre hne
        | cons a pre2 =>
          rw [hpre] at hzz
          rw [List.cons_append, List.headD_cons] at hzz
          rw [hpre, List.headD_cons] at hz
          have h0 := hz hzz
          omega

/-- `natChars` packaging of the spelling properties. -/
theorem natChars_spec (n : Nat) :
    natChars n ≠ [] ∧ (natChars n).all Char.isDigit = true ∧
      natOfDigits (natChars n) = n ∧ ((natChars n).headD ' ' = '0' → n = 0) :=
  natCharsAux_spec (n + 1) n (Nat.lt_succ_self n)

/-- The digit scan splits an all-digit prefix from a non-digit-headed
remainder. -/
theorem spanDigits_append :
    ∀ (ds : List Char), ds.all Char.isDigit = true →
      ∀ (rest : List Char), ((rest.headD ' ').isDigit) = false →
        spanDigits (ds ++ rest) = (ds, rest)
  | [], _, rest, hrest => by
    cases rest with
    | nil => rfl
    | cons c r =>
      rw [List.headD_cons] at hrest
      rw [List.nil_append]
      unfold spanDigits
      rw [if_neg (by simp [hrest])]
  | d :: ds, hall, rest, hrest => by
    rw [List.all_cons, Bool.and_eq_true] at hall
    rw [List.cons_append]
    unfold spanDigits
    rw [if_pos hall.1, spanDigits_append ds hall.2 rest hrest]

/-- Scanning a quote-free body terminated by its quote. -/
theorem parseQuoted_append (q : Char) :
    ∀ (body rest : List Char), q ∉ body →
      parseQuoted q (body ++ q :: rest) = some (body, rest)
  | [], rest, _ => by simp [parseQuoted]
  | c :: body, rest, h => by
    have hc : ¬(c = q) := fun he => h (by rw [← he]; exact List.mem_cons_self c body)
    have ih := parseQuoted_append q body rest (fun hm => h (List.mem_cons_of_mem c hm))
    simp [parseQuoted, if_neg hc, ih]

/-- For a round-tripping element (no quotes at all), `repr` uses single
quotes, which do not occur in the element. -/
theorem pyReprChars_spec (s : String) (h : goodElem s = true) :
    pyReprChars s = '\'' :: (s.data ++ ['\'']) ∧ '\'' ∉ s.data := by
  obtain ⟨hA, -, -⟩ := goodElem_parts s h
  have hcond : (s.data.contains '\'' && !s.data.contains '"') = false := by
    rw [hA]; rfl
  refine ⟨by unfold pyReprChars; rw [hcond]; rfl, fun hmem => ?_⟩
  have h2 : s.data.contains '\'' = true := List.elem_eq_true_of_mem hmem
  rw [h2] at hA
  cases hA

/-- `skipSpaces` passes a non-space head through. -/
theorem skipSpaces_cons_of_ne (c : Char) (l : List Char) (h : ¬c = ' ') :
    skipSpaces (c :: l) = c :: l := by
  simp [skipSpaces, h]

/-- One parse step of a quoted element inside a list literal. -/
theorem parseElems_cons_quote (fuel : Nat) (q : Char) (hq : q = '\'' ∨ q = '"')
    (body rest : List Char) (hbody : q ∉ body) :
    parseElems (fuel + 1) (q :: (body ++ q :: rest)) =
      (match skipSpaces rest with
       | [] => Option.none
       | d :: rest2 =>
         if d = ',' then
           (parseElems fuel rest2).map (fun p => (PyElem.str (String.mk body) :: p.1, p.2))
         else if d = ']' then some ([PyElem.str (String.mk body)], rest2)
         else Option.none) := by
  rcases hq with rfl | rfl <;>
    simp [parseElems, skipSpaces, parseQuoted_append _ body rest hbody]

/-- One parse step of a spelled integer element inside a list literal, for
a tail that does not begin with a further digit. -/
theorem parseElems_cons_num (fuel : Nat) (v : Int) (tail : List Char)
    (htail : ((tail.headD ' ').isDigit) = false) :
    parseElems (fuel + 1) (intChars v ++ tail) =
      (match skipSpaces tail with
       | [] => Option.none
       | d :: rest2 =>
         if d = ',' then
           (parseElems fuel rest2).map (fun p => (PyElem.int v :: p.1, p.2))
         else if d = ']' then some ([PyElem.int v], rest2)
         else Option.none) := by
  obtain ⟨hne, hall, hval, hz⟩ := natChars_spec v.natAbs
  have hld : ¬(1 < (natChars v.natAbs).length ∧ (natChars v.natAbs).headD ' ' = '0') := by
    rintro ⟨hlen, hhd⟩
    have h0 := hz hhd
    rw [h0] at hlen
    exact absurd hlen (by decide)
  by_cases hneg : v < 0
  · have hic : intChars v = '-' :: natChars v.natAbs := by
      unfold intChars
      rw [if_pos hneg]
    have hvv : -(natOfDigits (natChars v.natAbs) : Int) = v := by
      rw [hval]
      omega
    rw [hic, List.cons_append]
    conv_lhs => simp only [parseElems]
    rw [skipSpaces_cons_of_ne '-' _ (by decide)]
    simp only []
    simp only [reduceIte]
    rw [spanDigits_append _ hall tail htail]
    simp only []
    rw [if_neg hne, if_neg hld, hvv]
    rw [if_neg (show ¬('-' : Char) = ']' from by decide)]
    rw [if_neg (show ¬((decide (('-' : Char) = '\'') || decide (('-' : Char) = '"')) = true)
      from by decide)]
  · have hic : intChars v = natChars v.natAbs := by
      unfold intChars
      rw [if_neg hneg]
    have hvv : ((natOfDigits (natChars v.natAbs) : Nat) : Int) = v := by
      rw [hval]
      omega
    cases hnc : natChars v.natAbs with
    | nil => exact absurd hnc hne
    | cons a as =>
      have ha : a.isDigit = true := by
        rw [hnc, List.all_cons, Bool.and_eq_true] at hall
        exact hall.1
      have hnd : ¬a = '-' := isDigit_ne a ha '-' (by decide)
      rw [hic, hnc, List.cons_append]
      conv_lhs => simp only [parseElems]
      rw [skipSpaces_cons_of_ne a _ (isDigit_ne a ha ' ' (by decide))]
      simp only []
      rw [if_neg (isDigit_ne a ha ']' (by decide))]
      rw [if_neg (by
        intro hq
        rcases Bool.or_eq_true_iff.mp hq with h1 | h1
        · exact isDigit_ne a ha '\'' (by decide) (of_decide_eq_true h1)
        · exact isDigit_ne a ha '"' (by decide) (of_decide_eq_true h1))]
      rw [if_neg hnd, ← List.cons_append, ← hnc,
        spanDigits_append _ hall tail htail]
      simp only []
      rw [if_neg hne, if_neg hld, if_neg hnd, hvv]

/-- Leading spaces do not affect element parsing. -/
theorem parseElems_skip_space (fuel : Nat) (X : List Char) :
    parseElems (fuel + 1) (' ' :: X) = parseElems (fuel + 1) X := by
  simp only [parseElems]
  rw [show skipSpaces (' ' :: X) = skipSpaces X by simp [skipSpaces]]

/-- Every spelled element is at least one character. -/
theorem pyElemChars_length_pos (e : PyElem) : 1 ≤ (pyElemChars e).length := by
  cases e with
  | int n =>
    show 1 ≤ (intChars n).length
    unfold intChars
    by_cases hn : n < 0
    · rw [if_pos hn]
      simp
    · rw [if_neg hn]
      cases hnc : natChars n.natAbs with
      | nil => exact absurd hnc (natChars_spec n.natAbs).1
      | cons a as => simp
  | str s =>
    show 1 ≤ (pyReprChars s).length
    unfold pyReprChars
    simp

/-- A list spells at most as many elements as it has characters. -/
theorem pyStrElemsChars_length_ge : ∀ l : List PyElem, l.length ≤ (pyStrElemsChars l).length
  | [] => by simp [pyStrElemsChars]
  | [e] => by
    have h1 := pyElemChars_length_pos e
    simpa [pyStrElemsChars] using h1
  | e :: e2 :: rest => by
    have h1 := pyStrElemsChars_length_ge (e2 :: rest)
    have h2 := pyElemChars_length_pos e
    simp only [pyStrElemsChars, List.length_cons, List.length_append] at *
    omega

/-- Parsing the spelled elements of a round-tripping list recovers it. -/
theorem parseElems_strElems :
    ∀ (l : List PyElem) (fuel : Nat) (rem : List Char), l.all goodLit = true →
      l.length < fuel + 1 →
      parseElems (fuel + 1) (pyStrElemsChars l ++ ']' :: rem) = some (l, rem)
  | [], fuel, rem, _, _ => by
    simp [pyStrElemsChars, parseElems, skipSpaces]
  | [e], fuel, rem, hall, _ => by
    cases e with
    | str s =>
      obtain ⟨hrepr, hnot⟩ := pyReprChars_spec s (by simpa [goodLit] using hall)
      have hs : String.mk s.data = s := rfl
      have heq : pyStrElemsChars [PyElem.str s] ++ ']' :: rem =
          '\'' :: (s.data ++ '\'' :: (']' :: rem)) := by
        simp [pyStrElemsChars, pyElemChars, hrepr]
      rw [heq, parseElems_cons_quote fuel '\'' (Or.inl rfl) s.data (']' :: rem) hnot]
      simp [skipSpaces, hs]
    | int n =>
      have heq : pyStrElemsChars [PyElem.int n] ++ ']' :: rem =
          intChars n ++ (']' :: rem) := by
        simp [pyStrElemsChars, pyElemChars]
      rw [heq, parseElems_cons_num fuel n (']' :: rem) (by rw [List.headD_cons]; decide)]
      simp [skipSpaces]
  | e :: e2 :: rest, fuel, rem, hall, hlen => by
    cases fuel with
    | zero =>
      simp only [List.length_cons] at hlen
      omega
    | succ f =>
      have hall2 : (e2 :: rest).all goodLit = true := by
        simp only [List.all_cons, Bool.and_eq_true] at hall ⊢
        exact ⟨hall.2.1, hall.2.2⟩
      have hrec := parseElems_strElems (e2 :: rest) f rem hall2 (by
        simp only [List.length_cons] at hlen ⊢
        omega)
      cases e with
      | str s =>
        obtain ⟨hrepr, hnot⟩ := pyReprChars_spec s (by
          simp only [List.all_cons, Bool.and_eq_true] at hall
          simpa [goodLit] using hall.1)
        have hs : String.mk s.data = s := rfl
        have heq : pyStrElemsChars (PyElem.str s :: e2 :: rest) ++ ']' :: rem =
            '\'' :: (s.data ++ '\'' :: (',' :: ' ' ::
              (pyStrElemsChars (e2 :: rest) ++ ']' :: rem))) := by
          simp [pyStrElemsChars, pyElemChars, hrepr]
        rw [heq, parseElems_cons_quote (f + 1) '\'' (Or.inl rfl) s.data _ hnot]
        simp [skipSpaces, parseElems_skip_space, hrec, hs]
      | int n =>
        have heq : pyStrElemsChars (PyElem.int n :: e2 :: rest) ++ ']' :: rem =
            intChars n ++ (',' :: ' ' :: (pyStrElemsChars (e2 :: rest) ++ ']' :: rem)) := by
          simp [pyStrElemsChars, pyElemChars]
        rw [heq, parseElems_cons_num (f + 1) n _ (by rw [List.headD_cons]; decide)]
        simp [skipSpaces, parseElems_skip_space, hrec]

/-- Python `eval` round-trips `str(l)` for lists of round-tripping
elements. -/
theorem pyEval_strElems (l : List PyElem) (hall : l.all goodLit = true) :
    pyEval (pyStrElems l) = some (.list l) := by
  unfold pyEval pyStrElems
  rw [show (String.mk ('[' :: (pyStrElemsChars l ++ [']']))).data =
    '[' :: (pyStrElemsChars l ++ [']']) from rfl]
  rw [show skipSpaces ('[' :: (pyStrElemsChars l ++ [']'])) =
    '[' :: (pyStrElemsChars l ++ [']']) from skipSpaces_cons_of_ne _ _ (by decide)]
  rw [show (String.mk ('[' :: (pyStrElemsChars l ++ [']']))).length =
    (pyStrElemsChars l ++ [']']).length + 1 from rfl]
  simp only []
  rw [parseElems_strElems l ((pyStrElemsChars l ++ [']']).length + 1) [] hall (by
    have := pyStrElemsChars_length_ge l
    simp only [List.length_append]
    omega)]
  simp [skipSpaces]

/-- The double-quoted one-element list literal written by the `except`
branch of `update_array` also evaluates to that one-element list. -/
theorem pyEval_dquote_singleton (v : String) (hv : goodElem v = true) :
    pyEval ("[\"" ++ v ++ "\"]") = some (.list [.str v]) := by
  have hB : '"' ∉ v.data := by
    obtain ⟨-, hb, -⟩ := goodElem_parts v hv
    intro hm
    have h3 : v.data.contains '"' = true := List.elem_eq_true_of_mem hm
    rw [h3] at hb
    cases hb
  have hdata : ("[\"" ++ v ++ "\"]").data = '[' :: '"' :: (v.data ++ '"' :: (']' :: [])) := by
    simp [String.data_append]
  have hmk : String.mk v.data = v := rfl
  unfold pyEval
  rw [hdata, skipSpaces_cons_of_ne '[' _ (by decide)]
  simp only []
  rw [parseElems_cons_quote ("[\"" ++ v ++ "\"]").length '"' (Or.inr rfl) v.data
    (']' :: []) hB]
  simp [skipSpaces, hmk]

/-- C10: the ARRAY update helpers of UPDATE never raise on a malformed
cell: on every cell of the `silentCell` class — non-strings, blanks, the
empty-list literal, scalar literals, pure identifier text, and quoteless
`$`-junk, i.e. cells Python `eval` either raises on or evaluates to a
non-list — an append silently stores a one-element list holding just the
new element, a removal silently resets the cell to `'[]'`, and the
enclosing UPDATE statement succeeds. -/
theorem C10_array_helpers_silent (v : String) (x : PyVal)
    (hx : silentCell x = true) (hv : goodElem v = true) :
    pyEval (update_array v x) = some (.list [.str v]) ∧
    remove_from_array v x = "[]" ∧
    update_row { df := { cols := ["c"], rows := [[x]] }, meta := [("c", arrayColMeta)] }
        Option.none [("c", SetRhs.dpipe v)] =
      .ok { df := { cols := ["c"], rows := [[.str (update_array (stripBraces v) x)]] },
            meta := [("c", arrayColMeta)] } := by
  have hsingle : ([PyElem.str v] : List PyElem).all goodLit = true := by
    simp [goodLit, hv]
  refine ⟨?_, ?_, rfl⟩
  · cases x with
    | str s =>
      by_cases hse : s = "[]"
      · subst hse
        unfold update_array
        simp only []
        simp only [if_true]
        exact pyEval_strElems [.str v] hsingle
      · unfold silentCell at hx
        simp only [] at hx
        have hbe : (s == "[]") = false := by
          cases hc : s == "[]"
          · rfl
          · exact absurd (by simpa using hc) hse
        rw [hbe, Bool.false_or] at hx
        unfold update_array
        simp only []
        rw [if_neg hse]
        cases hev : pyEval s with
        | some pl =>
          cases pl with
          | list l => rw [hev] at hx; cases hx
          | other => exact pyEval_strElems [.str v] hsingle
        | none => exact pyEval_dquote_singleton v hv
    | none => exact pyEval_strElems [.str v] hsingle
    | int n => exact pyEval_dquote_singleton v hv
    | float q => exact pyEval_dquote_singleton v hv
    | bool b => exact pyEval_dquote_singleton v hv
    | list l => exact pyEval_dquote_singleton v hv
  · cases x with
    | str s =>
      by_cases hse : s = "[]"
      · subst hse
        unfold remove_from_array
        simp only []
        simp only [if_true]
        rfl
      · unfold silentCell at hx
        simp only [] at hx
        have hbe : (s == "[]") = false := by
          cases hc : s == "[]"
          · rfl
          · exact absurd (by simpa using hc) hse
        rw [hbe, Bool.false_or] at hx
        unfold remove_from_array
        simp only []
        rw [if_neg hse]
        cases hev : pyEval s with
        | some pl =>
          cases pl with
          | list l => rw [hev] at hx; cases hx
          | other => rfl
        | none => rfl
    | none => rfl
    | int n => rfl
    | float q => rfl
    | bool b => rfl
    | list l => rfl

/-- C10 witness: the cell `oops` (a Python `NameError` under `eval`) with
element `x`. -/
theorem C10_witness :
    pyEval (update_array "x" (.str "oops")) = some (.list [.str "x"]) ∧
    remove_from_array "x" (.str "oops") = "[]" ∧
    update_row { df := { cols := ["c"], rows := [[PyVal.str "oops"]] },
                 meta := [("c", arrayColMeta)] }
        Option.none [("c", SetRhs.dpipe "x")] =
      .ok { df := { cols := ["c"],
                    rows := [[.str (update_array (stripBraces "x") (.str "oops"))]] },
            meta := [("c", arrayColMeta)] } :=
  C10_array_helpers_silent "x" (.str "oops") (by decide) (by decide)

/-- A spelled non-empty list is never the two-character literal `[]`. -/
theorem pyStrElems_ne_emptyLit (a : PyElem) (l2 : List PyElem) :
    pyStrElems (a :: l2) ≠ "[]" := by
  intro h
  have hd : (pyStrElems (a :: l2)).data.length = 2 := by rw [h]; decide
  have h2 : 1 ≤ (pyStrElemsChars (a :: l2)).length := by
    have hg := pyStrElemsChars_length_ge (a :: l2)
    simp only [List.length_cons] at hg
    omega
  rw [show (pyStrElems (a :: l2)).data = '[' :: (pyStrElemsChars (a :: l2) ++ [']'])
    from rfl] at hd
  simp only [List.length_cons, List.length_append, List.length_singleton] at hd
  omega

/-- Erasing a fresh final element recovers the list. -/
theorem erase_append_singleton {α : Type} [DecidableEq α] (v : α) :
    ∀ l : List α, v ∉ l → (l ++ [v]).erase v = l
  | [], _ => by simp
  | a :: l, h => by
    have hne : ¬a = v := fun he => h (List.mem_cons.mpr (Or.inl he.symm))
    rw [List.cons_append, List.erase_cons, if_neg (by simpa using hne)]
    rw [erase_append_singleton v l (fun hm => h (List.mem_cons_of_mem a hm))]

/-- An append on a good cell stores the canonical text of a non-empty
round-tripping list that holds the element. -/
theorem update_array_spec (v : String) (hv : goodElem v = true) :
    ∀ x : PyVal, goodCellVal x = true →
      ∃ l : List PyElem, update_array v x = pyStrElems l ∧
        l.contains (.str v) = true ∧ l.all goodLit = true ∧ l ≠ []
  | .none, _ => ⟨[.str v], rfl, by simp, by simp [goodLit, hv], by simp⟩
  | .int n, hx => by cases hx
  | .float q, hx => by cases hx
  | .bool b, hx => by cases hx
  | .list l0, hx => by cases hx
  | .str s, hx => by
    by_cases hse : s = "[]"
    · subst hse
      refine ⟨[.str v], ?_, by simp, by simp [goodLit, hv], by simp⟩
      unfold update_array
      simp only []
      simp
    · unfold goodCellVal at hx
      simp only [] at hx
      have hbe : (s == "[]") = false := by
        cases hc : s == "[]"
        · rfl
        · exact absurd (by simpa using hc) hse
      rw [hbe, Bool.false_or] at hx
      cases hev : pyEval s with
      | none => rw [hev] at hx; cases hx
      | some pl =>
        cases pl with
        | other => rw [hev] at hx; cases hx
        | list l =>
          rw [hev] at hx
          simp only [] at hx
          unfold update_array
          simp only []
          rw [if_neg hse, hev]
          simp only []
          cases hcv : l.contains (PyElem.str v) with
          | true =>
            refine ⟨l, by simp, hcv, hx, fun he => ?_⟩
            subst he
            cases hcv
          | false =>
            refine ⟨l ++ [.str v], by simp, by simp, ?_, by simp⟩
            simp [List.all_append, hx, goodLit, hv]

/-- Appending the same element a second time does not change the cell. -/
theorem update_array_idem (v : String) (hv : goodElem v = true) (x : PyVal)
    (hx : goodCellVal x = true) :
    update_array v (.str (update_array v x)) = update_array v x := by
  obtain ⟨l, heq, hcv, hall, hne⟩ := update_array_spec v hv x hx
  rw [heq]
  obtain ⟨a, l2, rfl⟩ : ∃ a l2, l = a :: l2 := by
    cases l with
    | nil => exact absurd rfl hne
    | cons a l2 => exact ⟨a, l2, rfl⟩
  unfold update_array
  simp only []
  rw [if_neg (pyStrElems_ne_emptyLit a l2), pyEval_strElems _ hall]
  simp only []
  rw [if_pos hcv]

/-- Appending then removing a fresh element restores a canonical cell. -/
theorem remove_after_update (v : String) (hv : goodElem v = true) (s : String)
    (hx : canonicalCellNo v (.str s) = true) :
    remove_from_array v (.str (update_array v (.str s))) = s := by
  unfold canonicalCellNo at hx
  simp only [] at hx
  by_cases hse : s = "[]"
  · subst hse
    have hupd : update_array v (.str "[]") = pyStrElems [.str v] := by
      unfold update_array
      simp only []
      simp
    rw [hupd]
    unfold remove_from_array
    simp only []
    rw [if_neg (pyStrElems_ne_emptyLit (.str v) []),
      pyEval_strElems [.str v] (by simp [goodLit, hv])]
    simp
    try decide
  · have hbe : (s == "[]") = false := by
      cases hc : s == "[]"
      · rfl
      · exact absurd (by simpa using hc) hse
    rw [hbe, Bool.false_or] at hx
    cases hev : pyEval s with
    | none => rw [hev] at hx; cases hx
    | some pl =>
      cases pl with
      | other => rw [hev] at hx; cases hx
      | list l =>
        rw [hev] at hx
        simp only [] at hx
        rcases Bool.and_eq_true_iff.mp hx with ⟨h3, hnemp⟩
        rcases Bool.and_eq_true_iff.mp h3 with ⟨h4, hps⟩
        rcases Bool.and_eq_true_iff.mp h4 with ⟨hall, hncv⟩
        have hcv : l.contains (PyElem.str v) = false := by
          cases hc : l.contains (PyElem.str v)
          · rfl
          · rw [hc] at hncv; cases hncv
        have hvnm : PyElem.str v ∉ l := fun hm => by
          have h5 : l.contains (PyElem.str v) = true := List.elem_eq_true_of_mem hm
          rw [h5] at hcv
          cases hcv
        have hseq : pyStrElems l = s := by simpa using hps
        have hupd : update_array v (.str s) = pyStrElems (l ++ [.str v]) := by
          unfold update_array
          simp only []
          rw [if_neg hse, hev]
          simp only []
          rw [if_neg (by rw [hcv]; exact Bool.false_ne_true)]
        rw [hupd]
        obtain ⟨a, rest, hcons⟩ : ∃ a rest, l ++ [PyElem.str v] = a :: rest := by
          cases l with
          | nil => exact ⟨.str v, [], rfl⟩
          | cons a l2 => exact ⟨a, l2 ++ [PyElem.str v], rfl⟩
        have hall2 : (l ++ [PyElem.str v]).all goodLit = true := by
          simp [List.all_append, hall, goodLit, hv]
        have hcnt : (l ++ [PyElem.str v]).contains (PyElem.str v) = true :=
          List.elem_eq_true_of_mem (List.mem_append.mpr (Or.inr (List.mem_singleton.mpr rfl)))
        unfold remove_from_array
        simp only []
        rw [hcons] at hall2 hcnt ⊢
        rw [if_neg (pyStrElems_ne_emptyLit a rest), pyEval_strElems _ hall2]
        simp only []
        rw [if_pos hcnt]
        rw [← hcons, erase_append_singleton (PyElem.str v) l hvnm, hseq]

/-- Reading back a just-set entry. -/
theorem getD_set_self {α : Type} :
    ∀ (l : List α) (i : Nat) (v d : α), i < l.length → (l.set i v).getD i d = v
  | [], i, _, _, h => by cases h
  | a :: l, 0, v, d, _ => rfl
  | a :: l, i + 1, v, d, h => by
    simp only [List.set_cons_succ, List.getD_cons_succ]
    exact getD_set_self l i v d (by simpa using h)

/-- Writing back the entry just read is the identity. -/
theorem set_getD_self {α : Type} :
    ∀ (l : List α) (i : Nat) (d : α), i < l.length → l.set i (l.getD i d) = l
  | [], i, _, h => by cases h
  | a :: l, 0, d, _ => rfl
  | a :: l, i + 1, d, h => by
    simp only [List.getD_cons_succ, List.set_cons_succ]
    rw [set_getD_self l i d (by simpa using h)]

/-- Zipping a list with a mask computed from itself fuses into one map. -/
theorem zip_map_self_map {α : Type} (g : α → Bool) (u : α → α) :
    ∀ l : List α,
      (l.zip (l.map g)).map (fun p => if p.2 then u p.1 else p.1) =
        l.map (fun r => if g r then u r else r)
  | [] => rfl
  | a :: l => by
    simp only [List.map_cons, List.zip_cons_cons]
    rw [zip_map_self_map g u l]

/-- The shape of an UPDATE with one ARRAY-append SET assignment: every
masked row's cell is rewritten by `update_array`; metadata and header are
unchanged. -/
theorem update_row_dpipe_shape (tf : TableFile) (p? : Option RowPred) (c raw : String)
    (m : ColumnMeta) (hm : tf.meta.lookup c = some m) (hty : m.type = "ARRAY")
    (hc : tf.df.cols.contains c = true) :
    update_row tf p? [(c, SetRhs.dpipe raw)] = .ok
      { df := { cols := tf.df.cols,
                rows := tf.df.rows.map (fun r =>
                  if (match p? with
                      | some p => p (tf.df.cols.zip r)
                      | Option.none => true) then
                    r.set (tf.df.cols.indexOf c)
                      (.str (update_array (stripBraces raw)
                        (r.getD (tf.df.cols.indexOf c) PyVal.none)))
                  else r) },
        meta := tf.meta } := by
  unfold update_row
  cases p? with
  | none =>
    simp only [List.foldlM, applySet, hm, hty, DataFrame.mapColMasked, hc, if_pos rfl,
      if_true, Bind.bind, Except.bind, Except.map, pure, Except.pure]
    rw [zip_map_self_map (fun _ => true) (fun r => r.set (List.indexOf c tf.df.cols)
      (PyVal.str (update_array (stripBraces raw) (r.getD (List.indexOf c tf.df.cols) PyVal.none)))) tf.df.rows]
    simp
  | some p =>
    simp only [List.foldlM, applySet, hm, hty, DataFrame.mapColMasked, hc, if_pos rfl,
      if_true, Bind.bind, Except.bind, Except.map, pure, Except.pure]
    rw [zip_map_self_map (fun r => p (tf.df.cols.zip r)) (fun r => r.set (List.indexOf c tf.df.cols)
      (PyVal.str (update_array (stripBraces raw) (r.getD (List.indexOf c tf.df.cols) PyVal.none)))) tf.df.rows]

/-- The shape of an UPDATE with one ARRAY-remove SET assignment. -/
theorem update_row_sub_shape (tf : TableFile) (p? : Option RowPred) (c raw : String)
    (m : ColumnMeta) (hm : tf.meta.lookup c = some m) (hty : m.type = "ARRAY")
    (hc : tf.df.cols.contains c = true) :
    update_row tf p? [(c, SetRhs.sub raw)] = .ok
      { df := { cols := tf.df.cols,
                rows := tf.df.rows.map (fun r =>
                  if (match p? with
                      | some p => p (tf.df.cols.zip r)
                      | Option.none => true) then
                    r.set (tf.df.cols.indexOf c)
                      (.str (remove_from_array (stripBraces raw)
                        (r.getD (tf.df.cols.indexOf c) PyVal.none)))
                  else r) },
        meta := tf.meta } := by
  unfold update_row
  cases p? with
  | none =>
    simp only [List.foldlM, applySet, hm, hty, DataFrame.mapColMasked, hc, if_pos rfl,
      if_true, Bind.bind, Except.bind, Except.map, pure, Except.pure]
    rw [zip_map_self_map (fun _ => true) (fun r => r.set (List.indexOf c tf.df.cols)
      (PyVal.str (remove_from_array (stripBraces raw) (r.getD (List.indexOf c tf.df.cols) PyVal.none)))) tf.df.rows]
    simp
  | some p =>
    simp only [List.foldlM, applySet, hm, hty, DataFrame.mapColMasked, hc, if_pos rfl,
      if_true, Bind.bind, Except.bind, Except.map, pure, Except.pure]
    rw [zip_map_self_map (fun r => p (tf.df.cols.zip r)) (fun r => r.set (List.indexOf c tf.df.cols)
      (PyVal.str (remove_from_array (stripBraces raw) (r.getD (List.indexOf c tf.df.cols) PyVal.none)))) tf.df.rows]

/-- C7 (amended): provided every cell of the target ARRAY column in a row
the WHERE mask selects is blank, `'[]'`, or text `eval` parses as a list of
integer and quote-free string elements, and the appended element is
quote-free, `c = c || 'x'` is idempotent: running the same statement a
second time (same WHERE clause, re-evaluated against the updated rows as
the source does) changes nothing — unselected rows are untouched by both
passes and need no hypothesis.  And when there is no WHERE clause and every
cell is `'[]'` or the canonical stored text of a list not containing the
element, `c = c || 'x'` followed by `c = c - 'x'` restores the table
exactly (with a WHERE clause the removal re-evaluates the predicate against
the appended rows, so it can skip rows the append changed; the restoration
law is therefore stated for full-table statements).  A blank cell comes
back as `'[]'`, and a selected cell `eval` cannot parse breaks idempotence
— see the counterexample. -/
theorem C7_amended (tf : TableFile) (p? : Option RowPred) (c raw : String)
    (m : ColumnMeta) (hm : tf.meta.lookup c = some m) (hty : m.type = "ARRAY")
    (hc : tf.df.cols.contains c = true)
    (hlen : ∀ r ∈ tf.df.rows, r.length = tf.df.cols.length)
    (hcells : ∀ r ∈ tf.df.rows,
      (match p? with
       | some p => p (tf.df.cols.zip r)
       | Option.none => true) = true →
      goodCellVal (r.getD (tf.df.cols.indexOf c) PyVal.none) = true)
    (hraw : goodElem (stripBraces raw) = true) :
    (∀ tf1, update_row tf p? [(c, SetRhs.dpipe raw)] = .ok tf1 →
      update_row tf1 p? [(c, SetRhs.dpipe raw)] = .ok tf1) ∧
    ((∀ r ∈ tf.df.rows, canonicalCellNo (stripBraces raw)
        (r.getD (tf.df.cols.indexOf c) PyVal.none) = true) →
      ∀ tf1, update_row tf Option.none [(c, SetRhs.dpipe raw)] = .ok tf1 →
        update_row tf1 Option.none [(c, SetRhs.sub raw)] = .ok tf) := by
  have hilt : tf.df.cols.indexOf c < tf.df.cols.length :=
    List.indexOf_lt_length.mpr (List.mem_of_elem_eq_true hc)
  constructor
  · intro tf1 hok
    rw [update_row_dpipe_shape tf p? c raw m hm hty hc] at hok
    injection hok with h1
    have h2 := update_row_dpipe_shape
      { df := { cols := tf.df.cols, rows := tf.df.rows.map (fun r =>
          if (match p? with
              | some p => p (tf.df.cols.zip r)
              | Option.none => true) then
            r.set (tf.df.cols.indexOf c)
              (.str (update_array (stripBraces raw)
                (r.getD (tf.df.cols.indexOf c) PyVal.none)))
          else r) },
        meta := tf.meta } p? c raw m hm hty hc
    rw [← h1, h2]
    refine congrArg Except.ok ?_
    refine congrArg₂ TableFile.mk (congrArg₂ DataFrame.mk rfl ?_) rfl
    show (tf.df.rows.map _).map _ = tf.df.rows.map _
    rw [List.map_map]
    refine List.map_congr_left fun r hr => ?_
    show (fun r2 =>
        if (match p? with
            | some p => p (tf.df.cols.zip r2)
            | Option.none => true) then
          r2.set (tf.df.cols.indexOf c)
            (.str (update_array (stripBraces raw)
              (r2.getD (tf.df.cols.indexOf c) PyVal.none)))
        else r2)
      ((fun r2 =>
        if (match p? with
            | some p => p (tf.df.cols.zip r2)
            | Option.none => true) then
          r2.set (tf.df.cols.indexOf c)
            (.str (update_array (stripBraces raw)
              (r2.getD (tf.df.cols.indexOf c) PyVal.none)))
        else r2) r) = _
    have hri : tf.df.cols.indexOf c < r.length := by
      rw [hlen r hr]
      exact hilt
    cases hbr : (match p? with
        | some p => p (tf.df.cols.zip r)
        | Option.none => true) with
    | false => simp only [hbr, Bool.false_eq_true, if_false]
    | true =>
      simp only [hbr, if_true]
      cases hbr2 : (match p? with
          | some p => p (tf.df.cols.zip
              (r.set (tf.df.cols.indexOf c)
                (.str (update_array (stripBraces raw)
                  (r.getD (tf.df.cols.indexOf c) PyVal.none)))))
          | Option.none => true) with
      | false => simp only [hbr2, Bool.false_eq_true, if_false]
      | true =>
        simp only [hbr2, if_true]
        rw [getD_set_self r _ _ _ hri]
        rw [update_array_idem (stripBraces raw) hraw _ (hcells r hr hbr)]
        rw [List.set_set]
  · intro hcanon tf1 hok
    rw [update_row_dpipe_shape tf Option.none c raw m hm hty hc] at hok
    injection hok with h1
    have h2 := update_row_sub_shape
      { df := { cols := tf.df.cols, rows := tf.df.rows.map (fun r =>
          if (match (Option.none : Option RowPred) with
              | some p => p (tf.df.cols.zip r)
              | Option.none => true) then
            r.set (tf.df.cols.indexOf c)
              (.str (update_array (stripBraces raw)
                (r.getD (tf.df.cols.indexOf c) PyVal.none)))
          else r) },
        meta := tf.meta } Option.none c raw m hm hty hc
    rw [← h1, h2]
    refine congrArg Except.ok ?_
    have hrows : ((tf.df.rows.map (fun r =>
        if (match (Option.none : Option RowPred) with
            | some p => p (tf.df.cols.zip r)
            | Option.none => true) then
          r.set (tf.df.cols.indexOf c)
            (.str (update_array (stripBraces raw)
              (r.getD (tf.df.cols.indexOf c) PyVal.none)))
        else r)).map (fun r =>
        if (match (Option.none : Option RowPred) with
            | some p => p (tf.df.cols.zip r)
            | Option.none => true) then
          r.set (tf.df.cols.indexOf c)
            (.str (remove_from_array (stripBraces raw)
              (r.getD (tf.df.cols.indexOf c) PyVal.none)))
        else r)) = tf.df.rows := by
      rw [List.map_map]
      have hid : ∀ r ∈ tf.df.rows, ((fun r2 =>
          if true = true then
            r2.set (tf.df.cols.indexOf c)
              (.str (remove_from_array (stripBraces raw)
                (r2.getD (tf.df.cols.indexOf c) PyVal.none)))
          else r2) ∘ (fun r2 =>
          if true = true then
            r2.set (tf.df.cols.indexOf c)
              (.str (update_array (stripBraces raw)
                (r2.getD (tf.df.cols.indexOf c) PyVal.none)))
          else r2)) r = id r := by
        intro r hr
        have hri : tf.df.cols.indexOf c < r.length := by
          rw [hlen r hr]
          exact hilt
        have hcan := hcanon r hr
        simp only [Function.comp_apply, if_true, id]
        rcases hxe : r.getD (tf.df.cols.indexOf c) PyVal.none with _ | n | q | s | b | l0 <;>
          rw [hxe] at hcan
        case str =>
          rw [getD_set_self r _ _ _ hri]
          rw [remove_after_update (stripBraces raw) hraw s hcan]
          rw [List.set_set, ← hxe, set_getD_self r _ _ hri]
        all_goals cases hcan
      rw [List.map_congr_left hid, List.map_id]
    rw [hrows]

/-- C7 witness: the one-row ARRAY table holding `'[]'` with element `b`:
the append is idempotent and append-then-remove restores the table. -/
theorem C7_witness :
    (∀ tf1, update_row emptyCellTF Option.none [("c", SetRhs.dpipe "b")] = .ok tf1 →
      update_row tf1 Option.none [("c", SetRhs.dpipe "b")] = .ok tf1) ∧
    ((∀ r ∈ emptyCellTF.df.rows, canonicalCellNo (stripBraces "b")
        (r.getD (emptyCellTF.df.cols.indexOf "c") PyVal.none) = true) →
      ∀ tf1, update_row emptyCellTF Option.none [("c", SetRhs.dpipe "b")] = .ok tf1 →
        update_row tf1 Option.none [("c", SetRhs.sub "b")] = .ok emptyCellTF) :=
  C7_amended emptyCellTF Option.none "c" "b" arrayColMeta
    (by decide) (by decide) (by decide) (by decide) (by decide) (by decide)

/-- A successful association-list lookup names a member. -/
theorem lookup_mem {β : Type} :
    ∀ (l : List (String × β)) (t : String) (v : β), l.lookup t = some v → (t, v) ∈ l
  | [], _, _, h => by cases h
  | (k, w) :: l, t, v, h => by
    unfold List.lookup at h
    cases hak : t == k with
    | true =>
      rw [hak] at h
      injection h with hwv
      have hk : t = k := by simpa using hak
      subst hk
      subst hwv
      exact List.mem_cons_self _ _
    | false =>
      rw [hak] at h
      exact List.mem_cons_of_mem _ (lookup_mem l t v h)

/-- Folding keyed dict insertion over fresh, distinct column names appends
exactly those names to the key list. -/
theorem dictInsert_fold_keys :
    ∀ (columns : List ColumnDefinition) (acc : List (String × ColumnMeta)),
      (columns.map (fun col => col.name)).Nodup →
      (∀ col ∈ columns, ∀ p ∈ acc, p.1 ≠ col.name) →
      ((columns.foldl (fun a col => dictInsert a col.name (buildColMeta col)) acc).map
        Prod.fst) = acc.map Prod.fst ++ columns.map (fun col => col.name)
  | [], acc, _, _ => by simp
  | col :: columns, acc, hnd, hfresh => by
    rw [List.map_cons] at hnd
    obtain ⟨hnotin, hnd2⟩ := List.nodup_cons.mp hnd
    have hany : acc.any (fun p => p.1 = col.name) = false := by
      rw [List.any_eq_false]
      intro p hp
      simpa using hfresh col (List.mem_cons_self _ _) p hp
    have hstep : dictInsert acc col.name (buildColMeta col) =
        acc ++ [(col.name, buildColMeta col)] := by
      unfold dictInsert
      rw [hany]
      rfl
    rw [List.foldl_cons, hstep]
    rw [dictInsert_fold_keys columns (acc ++ [(col.name, buildColMeta col)]) hnd2
      (fun c2 hc2 p hp => by
        rcases List.mem_append.mp hp with hp2 | hp2
        · exact hfresh c2 (List.mem_cons_of_mem _ hc2) p hp2
        · rcases List.mem_singleton.mp hp2 with rfl
          intro he
          exact hnotin (by
            rw [show col.name = c2.name from he]
            exact List.mem_map_of_mem (fun c => c.name) hc2))]
    simp

/-- A column-wise transform never changes the header. -/
theorem mapColM_cols (df df1 : DataFrame) (c : String) (f : PyVal → Option PyVal)
    (h : df.mapColM c f = some df1) : df1.cols = df.cols := by
  unfold DataFrame.mapColM at h
  simp only [] at h
  by_cases hc : df.cols.contains c = true
  · rw [if_pos hc] at h
    cases hrows : df.rows.mapM
        (fun r => (f (r.getD (df.cols.indexOf c) PyVal.none)).map (fun v => r.set (df.cols.indexOf c) v)) with
    | none => rw [hrows] at h; cases h
    | some rows =>
      rw [hrows] at h
      injection h with h1
      rw [← h1]
  · rw [if_neg hc] at h
    cases h

/-- Serial assignment and default filling keep the header and the metadata
keys. -/
theorem applySerialDefaults_preserves (now : String) :
    ∀ (meta : List (String × ColumnMeta)) (df df2 : DataFrame)
      (meta2 : List (String × ColumnMeta)),
      applySerialDefaults now meta df = .ok (df2, meta2) →
      df2.cols = df.cols ∧ meta2.map Prod.fst = meta.map Prod.fst
  | [], df, df2, meta2, h => by
    injection h with h1
    have h2 : df = df2 := congrArg Prod.fst h1
    have h3 : ([] : List (String × ColumnMeta)) = meta2 := congrArg Prod.snd h1
    subst h2
    subst h3
    exact ⟨rfl, rfl⟩
  | (c, m) :: meta, df, df2, meta2, h => by
    unfold applySerialDefaults at h
    by_cases hs : m.is_serial = true
    · rw [if_pos hs] at h
      cases hmap : df.mapColM c
          (fun v => some (if v = PyVal.none then .int m.auto_increment_counter else v)) with
      | none => rw [hmap] at h; cases h
      | some df1 =>
        rw [hmap] at h
        simp only [] at h
        cases hrec : applySerialDefaults now meta df1 with
        | error e => rw [hrec] at h; cases h
        | ok pr =>
          rw [hrec] at h
          injection h with h1
          obtain ⟨hcols, hkeys⟩ := applySerialDefaults_preserves now meta df1 pr.1 pr.2 (by
            rw [hrec])
          have h2 : pr.1 = df2 := congrArg Prod.fst h1
          have h3 := congrArg Prod.snd h1
          simp only [] at h3
          subst h2
          rw [← h3]
          refine ⟨hcols.trans (mapColM_cols df df1 c _ hmap), ?_⟩
          simp [hkeys]
    · rw [if_neg hs] at h
      cases hd : m.default with
      | none =>
        rw [hd] at h
        cases hrec : applySerialDefaults now meta df with
        | error e => rw [hrec] at h; cases h
        | ok pr =>
          rw [hrec] at h
          injection h with h1
          obtain ⟨hcols, hkeys⟩ := applySerialDefaults_preserves now meta df pr.1 pr.2 (by
            rw [hrec])
          have h2 : pr.1 = df2 := congrArg Prod.fst h1
          have h3 := congrArg Prod.snd h1
          simp only [] at h3
          subst h2
          rw [← h3]
          exact ⟨hcols, by simp [hkeys]⟩
      | some d =>
        rw [hd] at h
        simp only [] at h
        cases hp : parse_value_with_type now d m.type with
        | none => rw [hp] at h; cases h
        | some dv =>
          rw [hp] at h
          simp only [] at h
          cases hmap : df.mapColM c (fun v => some (if v = PyVal.none then dv else v)) with
          | none => rw [hmap] at h; cases h
          | some df1 =>
            rw [hmap] at h
            simp only [] at h
            cases hrec : applySerialDefaults now meta df1 with
            | error e => rw [hrec] at h; cases h
            | ok pr =>
              rw [hrec] at h
              injection h with h1
              obtain ⟨hcols, hkeys⟩ := applySerialDefaults_preserves now meta df1 pr.1 pr.2 (by
                rw [hrec])
              have h2 : pr.1 = df2 := congrArg Prod.fst h1
              have h3 := congrArg Prod.snd h1
              simp only [] at h3
              subst h2
              rw [← h3]
              exact ⟨hcols.trans (mapColM_cols df df1 c _ hmap), by simp [hkeys]⟩

/-- Type validation keeps the header. -/
theorem typeValidate_cols (now : String) :
    ∀ (meta : List (String × ColumnMeta)) (df df2 : DataFrame),
      typeValidate now meta df = .ok df2 → df2.cols = df.cols
  | [], df, df2, h => by
    injection h with h1
    rw [← h1]
  | (c, m) :: meta, df, df2, h => by
    unfold typeValidate at h
    by_cases hc : df.cols.contains c = true
    · rw [if_pos hc] at h
      cases hmap : df.mapColM c (fun v => parse_value_with_type now v m.type) with
      | none => rw [hmap] at h; cases h
      | some df1 =>
        rw [hmap] at h
        exact (typeValidate_cols now meta df1 df2 h).trans (mapColM_cols df df1 c _ hmap)
    · rw [if_neg hc] at h
      exact typeValidate_cols now meta df df2 h

/-- Stacking frames with identical headers keeps the header. -/
theorem concat_cols_of_eq (a b : DataFrame) (h : a.cols = b.cols) :
    (a.concat b).cols = a.cols := by
  unfold DataFrame.concat
  rw [if_pos h]

/-- The prepared new rows carry the declared columns, and the bumped
metadata keeps the declared keys. -/
theorem insertPrepare_preserves (now : String) (meta : List (String × ColumnMeta))
    (cols? : Option (List String)) (values : List (List PyVal))
    (nr : DataFrame) (m1 : List (String × ColumnMeta))
    (h : insertPrepare now meta cols? values = .ok (nr, m1)) :
    nr.cols = meta.map Prod.fst ∧ m1.map Prod.fst = meta.map Prod.fst := by
  unfold insertPrepare at h
  cases hrc : resolveInsertColumns meta cols? with
  | error e =>
    rw [hrc] at h
    simp only [Bind.bind, Except.bind] at h
    cases h
  | ok ic =>
    rw [hrc] at h
    simp only [Bind.bind, Except.bind] at h
    cases hasd : applySerialDefaults now meta (buildNewRows meta ic values) with
    | error e => rw [hasd] at h; cases h
    | ok pr =>
      obtain ⟨nr1, mm1⟩ := pr
      rw [hasd] at h
      simp only [] at h
      obtain ⟨hc1, hk1⟩ :=
        applySerialDefaults_preserves now meta (buildNewRows meta ic values) nr1 mm1 hasd
      cases htv : typeValidate now mm1 nr1 with
      | error e => rw [htv] at h; cases h
      | ok nr2 =>
        rw [htv] at h
        simp only [] at h
        cases hnn : notNullCheck mm1 nr2 with
        | error e => rw [hnn] at h; cases h
        | ok u =>
          rw [hnn] at h
          simp only [] at h
          injection h with h1
          have h2 : nr2 = nr := congrArg Prod.fst h1
          have h3 : mm1 = m1 := congrArg Prod.snd h1
          subst h2
          subst h3
          exact ⟨(typeValidate_cols now mm1 nr1 nr2 htv).trans hc1, hk1⟩

/-- A successful INSERT keeps the header and the metadata keys. -/
theorem insertStmt_preserves (now : String) (tf tf1 : TableFile)
    (cols? : Option (List String)) (values : List (List PyVal))
    (hinv : tf.df.cols = tf.meta.map Prod.fst)
    (h : insertStmt now tf cols? values = .ok tf1) :
    tf1.df.cols = tf.df.cols ∧ tf1.meta.map Prod.fst = tf.meta.map Prod.fst := by
  unfold insertStmt at h
  cases hprep : insertPrepare now tf.meta cols? values with
  | error e =>
    rw [hprep] at h
    simp only [Bind.bind, Except.bind] at h
    cases h
  | ok pr =>
    obtain ⟨nr, m1⟩ := pr
    rw [hprep] at h
    simp only [Bind.bind, Except.bind] at h
    obtain ⟨hc1, hk1⟩ := insertPrepare_preserves now tf.meta cols? values nr m1 hprep
    cases huc : uniqueCheck m1 (tf.df.concat nr) with
    | error e => rw [huc] at h; cases h
    | ok u =>
      rw [huc] at h
      simp only [] at h
      injection h with h1
      subst h1
      exact ⟨concat_cols_of_eq tf.df nr (hinv.trans hc1.symm), hk1⟩

/-- A masked column rewrite keeps the header. -/
theorem mapColMasked_cols (df df1 : DataFrame) (mask : List Bool) (c : String)
    (f : PyVal → PyVal) (h : df.mapColMasked mask c f = some df1) : df1.cols = df.cols := by
  unfold DataFrame.mapColMasked at h
  by_cases hc : df.cols.contains c = true
  · rw [if_pos hc] at h
    injection h with h1
    rw [← h1]
  · rw [if_neg hc] at h
    cases h

/-- Applying SET assignments whose columns are all declared keeps the
header equal to the metadata keys. -/
theorem applySet_fold_cols (meta : List (String × ColumnMeta)) (mask : List Bool) :
    ∀ (sets : List (String × SetRhs)) (df df2 : DataFrame),
      (∀ s ∈ sets, ((meta.map Prod.fst).contains s.1) = true) →
      df.cols = meta.map Prod.fst →
      sets.foldlM (fun d s => applySet meta mask d s) df = .ok df2 →
      df2.cols = meta.map Prod.fst
  | [], df, df2, _, hcols, h => by
    injection h with h1
    rw [← h1]
    exact hcols
  | s :: sets, df, df2, hsets, hcols, h => by
    rw [List.foldlM_cons] at h
    cases happ : applySet meta mask df s with
    | error e =>
      rw [happ] at h
      simp only [Bind.bind, Except.bind] at h
      cases h
    | ok d2 =>
      rw [happ] at h
      simp only [Bind.bind, Except.bind] at h
      have hd2 : d2.cols = meta.map Prod.fst := by
        obtain ⟨cname, rhs⟩ := s
        cases rhs with
        | dpipe raw =>
          unfold applySet at happ
          simp only [] at happ
          cases hlk : meta.lookup cname with
          | none => rw [hlk] at happ; cases happ
          | some m =>
            rw [hlk] at happ
            simp only [] at happ
            by_cases hty : m.type = "ARRAY"
            · rw [if_pos hty] at happ
              cases hmap : df.mapColMasked mask cname
                  (fun x => .str (update_array (stripBraces raw) x)) with
              | none => rw [hmap] at happ; cases happ
              | some dd =>
                rw [hmap] at happ
                simp only [] at happ
                injection happ with h2
                rw [← h2, mapColMasked_cols df dd mask cname _ hmap]
                exact hcols
            · rw [if_neg hty] at happ
              injection happ with h2
              rw [← h2]
              exact hcols
        | sub raw =>
          unfold applySet at happ
          simp only [] at happ
          cases hlk : meta.lookup cname with
          | none => rw [hlk] at happ; cases happ
          | some m =>
            rw [hlk] at happ
            simp only [] at happ
            by_cases hty : m.type = "ARRAY"
            · rw [if_pos hty] at happ
              cases hmap : df.mapColMasked mask cname
                  (fun x => .str (remove_from_array (stripBraces raw) x)) with
              | none => rw [hmap] at happ; cases happ
              | some dd =>
                rw [hmap] at happ
                simp only [] at happ
                injection happ with h2
                rw [← h2, mapColMasked_cols df dd mask cname _ hmap]
                exact hcols
            · rw [if_neg hty] at happ
              injection happ with h2
              rw [← h2]
              exact hcols
        | lit v =>
          unfold applySet at happ
          simp only [] at happ
          injection happ with h2
          have hcc : df.cols.contains cname = true := by
            rw [hcols]
            exact hsets (cname, .lit v) (List.mem_cons_self _ _)
          rw [← h2]
          unfold DataFrame.setColMasked
          rw [if_pos hcc]
          exact hcols
      exact applySet_fold_cols meta mask sets d2 df2
        (fun s2 hs2 => hsets s2 (List.mem_cons_of_mem _ hs2)) hd2 h

/-- A successful UPDATE whose SET columns are all declared keeps the
header and never rewrites the metadata. -/
theorem update_row_preserves (tf tf1 : TableFile) (p? : Option RowPred)
    (sets : List (String × SetRhs))
    (hsets : ∀ s ∈ sets, ((tf.meta.map Prod.fst).contains s.1) = true)
    (hinv : tf.df.cols = tf.meta.map Prod.fst)
    (h : update_row tf p? sets = .ok tf1) :
    tf1.df.cols = tf.df.cols ∧ tf1.meta = tf.meta := by
  unfold update_row at h
  simp only [] at h
  cases hfold : sets.foldlM
      (fun df s => applySet tf.meta
        (match p? with
         | some p => tf.df.rows.map (fun r => p (tf.df.cols.zip r))
         | Option.none => tf.df.rows.map (fun _ => true)) df s) tf.df with
  | error e => rw [hfold] at h; cases h
  | ok d2 =>
    rw [hfold] at h
    injection h with h1
    subst h1
    exact ⟨(applySet_fold_cols tf.meta _ sets tf.df d2 hsets hinv hfold).trans hinv.symm, rfl⟩

/-- DELETE keeps the header. -/
theorem delete_row_cols (df : DataFrame) (p? : Option RowPred) :
    (delete_row df p?).cols = df.cols := by
  cases p? <;> rfl

/-- Replacing one table with contents that satisfy the invariant keeps the
invariant. -/
theorem setTable_inv (db : Database) (t : String) (tf1 : TableFile)
    (hinv : headerInv db) (h1 : tf1.df.cols = tf1.meta.map Prod.fst) :
    headerInv (db.setTable t tf1) := by
  intro p hp
  unfold Database.setTable at hp
  simp only [] at hp
  rcases List.mem_map.mp hp with ⟨q, hq, hpq⟩
  by_cases hqt : q.1 = t
  · rw [if_pos hqt] at hpq
    rw [← hpq]
    exact h1
  · rw [if_neg hqt] at hpq
    rw [← hpq]
    exact hinv q hq

/-- C8 (amended): the header/metadata-key coherence invariant is preserved
by every successful `create_table` whose column names are distinct, by every
successful `insert` and `delete_row`, and by every successful `update_row`
all of whose SET columns are declared in the target table's metadata; the
unrestricted claim fails on UPDATEs naming undeclared columns
(`C8_counterexample`). `drop_table` is included for completeness. -/
theorem C8_amended (now : String) (db db2 : Database) (op : Op)
    (hinv : headerInv db)
    (hct : ∀ t cols, op = Op.createTable t cols → (cols.map (fun c => c.name)).Nodup)
    (hup : ∀ t p? sets, op = Op.updateTable t p? sets →
        ∀ s ∈ sets, ((metaKeysOf db t).contains s.1) = true)
    (hstep : step now db op = some db2) :
    headerInv db2 := by
  cases op with
  | createTable t cols =>
    have hnd := hct t cols rfl
    unfold step at hstep
    simp only [] at hstep
    cases hc : create_table db t cols with
    | error e =>
      rw [hc] at hstep
      simp [Except.toOption] at hstep
    | ok dbn =>
      rw [hc] at hstep
      simp only [Except.toOption] at hstep
      injection hstep with h1
      subst h1
      unfold create_table at hc
      by_cases hex : (db.find? t).isSome = true
      · rw [if_pos hex] at hc
        cases hc
      · rw [if_neg hex] at hc
        simp only [] at hc
        injection hc with h2
        subst h2
        intro p hp
        simp only [] at hp
        rcases List.mem_append.mp hp with hl | hr
        · exact hinv p hl
        · rw [List.mem_singleton] at hr
          subst hr
          have hk := dictInsert_fold_keys cols [] hnd
            (fun col hc2 p2 hp2 => absurd hp2 (List.not_mem_nil p2))
          simp only [List.map_nil, List.nil_append] at hk
          exact hk.symm
  | dropTable t =>
    unfold step at hstep
    simp only [] at hstep
    cases hc : drop_table db t with
    | error e =>
      rw [hc] at hstep
      simp [Except.toOption] at hstep
    | ok dbn =>
      rw [hc] at hstep
      simp only [Except.toOption] at hstep
      injection hstep with h1
      subst h1
      unfold drop_table at hc
      by_cases hex : (db.find? t).isSome = true
      · rw [if_pos hex] at hc
        injection hc with h2
        subst h2
        intro p hp
        simp only [] at hp
        exact hinv p (List.mem_of_mem_filter hp)
      · rw [if_neg hex] at hc
        cases hc
  | insertInto t cols? values =>
    unfold step at hstep
    simp only [] at hstep
    cases hft : db.find? t with
    | none =>
      rw [hft] at hstep
      simp only [] at hstep
      cases hstep
    | some tf =>
      rw [hft] at hstep
      simp only [] at hstep
      cases hi : insertStmt now tf cols? values with
      | error e =>
        rw [hi] at hstep
        simp [Except.toOption] at hstep
      | ok tf1 =>
        rw [hi] at hstep
        simp only [Except.toOption, Option.map] at hstep
        injection hstep with h1
        subst h1
        have hloc : tf.df.cols = tf.meta.map Prod.fst :=
          hinv (t, tf) (lookup_mem db.tables t tf hft)
        obtain ⟨hc1, hk1⟩ := insertStmt_preserves now tf tf1 cols? values hloc hi
        exact setTable_inv db t tf1 hinv (by rw [hc1, hk1]; exact hloc)
  | updateTable t p? sets =>
    have hsets := hup t p? sets rfl
    unfold step at hstep
    simp only [] at hstep
    cases hft : db.find? t with
    | none =>
      rw [hft] at hstep
      simp only [] at hstep
      cases hstep
    | some tf =>
      rw [hft] at hstep
      simp only [] at hstep
      cases hu : update_row tf p? sets with
      | error e =>
        rw [hu] at hstep
        simp [Except.toOption] at hstep
      | ok tf1 =>
        rw [hu] at hstep
        simp only [Except.toOption, Option.map] at hstep
        injection hstep with h1
        subst h1
        have hloc : tf.df.cols = tf.meta.map Prod.fst :=
          hinv (t, tf) (lookup_mem db.tables t tf hft)
        have hsets2 : ∀ s ∈ sets, ((tf.meta.map Prod.fst).contains s.1) = true := by
          intro s hs
          have hks := hsets s hs
          unfold metaKeysOf at hks
          rw [hft] at hks
          simp only [] at hks
          exact hks
        obtain ⟨hc1, hm1⟩ := update_row_preserves tf tf1 p? sets hsets2 hloc hu
        exact setTable_inv db t tf1 hinv (by rw [hc1, hm1]; exact hloc)
  | deleteFrom t p? =>
    unfold step at hstep
    simp only [] at hstep
    cases hft : db.find? t with
    | none =>
      rw [hft] at hstep
      simp only [] at hstep
      cases hstep
    | some tf =>
      rw [hft] at hstep
      simp only [] at hstep
      injection hstep with h1
      subst h1
      have hloc : tf.df.cols = tf.meta.map Prod.fst :=
        hinv (t, tf) (lookup_mem db.tables t tf hft)
      exact setTable_inv db t { df := delete_row tf.df p?, meta := tf.meta } hinv
        (by rw [delete_row_cols]; exact hloc)

/-- Witness for `C8_amended` at a concrete step: a full-table DELETE on the
`users` fixture preserves the invariant. -/
theorem C8_witness :
    headerInv { tables := [("users", usersTF)] } ∧
    headerInv (Database.setTable { tables := [("users", usersTF)] } "users"
      { df := delete_row usersTF.df Option.none, meta := usersTF.meta }) :=
  ⟨by unfold headerInv; decide,
   C8_amended "now" { tables := [("users", usersTF)] } _
     (Op.deleteFrom "users" Option.none)
     (by unfold headerInv; decide)
     (fun t cols h => Op.noConfusion h)
     (fun t p? sets h => Op.noConfusion h)
     rfl⟩

end Csvgres
